import Mathlib

/-!
A verification development for the PFR-scrape-crawl repository.

The Python sources are shallowly embedded as executable Lean definitions:
pure string processing becomes functions on `List Char`/`String`, the
stateful fetch layer becomes explicit state passing over a `FetchState`
record with rational clocks, pandas tables become lists of records, and
fallible parsing returns `Option`.  Unless a doc comment says otherwise,
every definition is translated from the corresponding function in the
repository source (file and function named in its comment).

Modelling conventions:
* Python text is modelled over the character set actually exercised by the
  scraper (ASCII plus the en/em dash handled by `_normalize_stat_name`);
  `str.strip`, `str.lower`, and the `\s` class are modelled on the ASCII
  whitespace set.
* `int(...)` / regex `\d` are modelled as ASCII decimal parsing with an
  optional sign, the forms produced by the scraped tables.
* Wall-clock time is a rational number; `time.sleep(d)` advances the clock
  by `d`; `random.uniform` jitter values are passed in as explicit
  per-attempt arguments.
-/

namespace PFR

/-! ### Python string primitives -/

/-- ASCII whitespace, the set matched by Python `str.strip()` and `\s`
on the pages this scraper handles. -/
def isPySpace (c : Char) : Bool :=
  c = ' ' || c = '\t' || c = '\n' || c = '\r' || c = Char.ofNat 11 || c = Char.ofNat 12

/-- `str.strip()` on a character list. -/
def pyStripChars (cs : List Char) : List Char :=
  ((cs.dropWhile isPySpace).reverse.dropWhile isPySpace).reverse

/-- `str.strip()` on a string. -/
def pyStrip (s : String) : String :=
  String.mk (pyStripChars s.data)

/-- `str.lower()` restricted to ASCII letters. -/
def asciiLower (c : Char) : Char :=
  if 'A' ≤ c && c ≤ 'Z' then Char.ofNat (c.toNat + 32) else c

/-- `str.lower()` on a string. -/
def pyLower (s : String) : String :=
  String.mk (s.data.map asciiLower)

/-- The dash unification of `_normalize_stat_name`
(`key.replace("–", "-").replace("—", "-")` in `src/aggregate_totals.py`). -/
def unifyDash (c : Char) : Char :=
  if c = '–' || c = '—' then '-' else c

/-- `re.sub(r"\s+", " ", key)`: collapse each whitespace run to one space.
The Bool argument records whether the previous character was whitespace. -/
def collapseWsAux : Bool → List Char → List Char
  | _, [] => []
  | prevWs, c :: cs =>
    if isPySpace c then
      if prevWs then collapseWsAux true cs else ' ' :: collapseWsAux true cs
    else c :: collapseWsAux false cs

def collapseWs (cs : List Char) : List Char :=
  collapseWsAux false cs

/-- Characters kept verbatim by the slug pattern `[^a-z0-9_]+`. -/
def isSlugKeep (c : Char) : Bool :=
  ('a' ≤ c && c ≤ 'z') || ('0' ≤ c && c ≤ '9') || c = '_'

/-- `re.sub(r"[^a-z0-9_]+", "_", key)`: collapse each run of excluded
characters to a single underscore. -/
def slugCollapse : Bool → List Char → List Char
  | _, [] => []
  | prevBad, c :: cs =>
    if isSlugKeep c then c :: slugCollapse false cs
    else if prevBad then slugCollapse true cs
    else '_' :: slugCollapse true cs

/-- `.strip("_")`. -/
def stripUnderscoreEnds (cs : List Char) : List Char :=
  ((cs.dropWhile (· == '_')).reverse.dropWhile (· == '_')).reverse

/-- The slug fallback of `_normalize_stat_name`:
`re.sub(r"[^a-z0-9_]+", "_", key).strip("_")`. -/
def slugOf (s : String) : String :=
  String.mk (stripUnderscoreEnds (slugCollapse false s.data))

def digitsToNat (ds : List Char) : ℕ :=
  ds.foldl (fun n c => 10 * n + (c.toNat - 48)) 0

/-- Python `int(s)` on a decimal string with optional sign
(`None` on failure, mirroring the `try/except` callers). -/
def parsePyInt (s : String) : Option Int :=
  match pyStripChars s.data with
  | [] => none
  | '-' :: ds =>
    if ds.isEmpty then none
    else if ds.all Char.isDigit then some (-(digitsToNat ds : Int)) else none
  | '+' :: ds =>
    if ds.isEmpty then none
    else if ds.all Char.isDigit then some (digitsToNat ds : Int) else none
  | ds =>
    if ds.all Char.isDigit then some (digitsToNat ds : Int) else none

/-! ### `src/aggregate_totals.py`: normalization dictionaries -/

/-- `STAT_ALIASES` from `src/aggregate_totals.py`. -/
def STAT_ALIASES : List (String × String) := [
  ("first downs", "first_downs"),
  ("firstdowns", "first_downs"),
  ("total yards", "total_yards"),
  ("total yds", "total_yards"),
  ("tot yards", "total_yards"),
  ("tot yds", "total_yards"),
  ("rushing yards", "rush_yards"),
  ("rush yards", "rush_yards"),
  ("rush-yds", "rush_yards"),
  ("passing yards", "pass_yards"),
  ("pass yards", "pass_yards"),
  ("pass-yds", "pass_yards"),
  ("turnovers", "turnovers"),
  ("to", "turnovers"),
  ("fumbles lost", "fumbles_lost"),
  ("fum lost", "fumbles_lost"),
  ("interceptions thrown", "ints_thrown"),
  ("int thrown", "ints_thrown"),
  ("interceptions", "ints_thrown"),
  ("penalties", "penalties"),
  ("penalties-yards", "penalties_yards"),
  ("pen-yds", "penalties_yards"),
  ("penalties/yds", "penalties_yards"),
  ("third down conv.", "third_down_conv"),
  ("third-down conv.", "third_down_conv"),
  ("3rd down conv.", "third_down_conv"),
  ("third down conv", "third_down_conv"),
  ("fourth down conv.", "fourth_down_conv"),
  ("4th down conv.", "fourth_down_conv"),
  ("fourth down conv", "fourth_down_conv"),
  ("time of possession", "time_of_possession"),
  ("possession time", "time_of_possession"),
  ("time of poss", "time_of_possession")]

/-- `STAT_ALIASES.get(key, ...)`: dictionary lookup. -/
def statAliasLookup (k : String) : Option String :=
  (STAT_ALIASES.find? (fun p => p.fst == k)).map Prod.snd

/-- `INT_LIKE` from `src/aggregate_totals.py`. -/
def INT_LIKE : List String :=
  ["first_downs", "total_yards", "rush_yards", "pass_yards", "turnovers",
   "fumbles_lost", "ints_thrown", "penalties", "penalties_yards"]

/-- `PCT_LIKE` from `src/aggregate_totals.py`. -/
def PCT_LIKE : List String :=
  ["third_down_conv", "fourth_down_conv"]

/-- `TIME_LIKE` from `src/aggregate_totals.py`. -/
def TIME_LIKE : List String :=
  ["time_of_possession"]

/-- The key computed by `_normalize_stat_name` before the alias lookup:
`s.strip().lower()`, dash unification, whitespace collapse. -/
def preNormalize (s : String) : String :=
  String.mk (collapseWs (((pyStripChars s.data).map asciiLower).map unifyDash))

/-- `_normalize_stat_name` from `src/aggregate_totals.py`. -/
def normalizeStatName (s : String) : String :=
  let key := preNormalize s
  match statAliasLookup key with
  | some v => v
  | none => slugOf key

/-- `_to_int_safe` from `src/aggregate_totals.py`. -/
def toIntSafe (s : String) : Option Int :=
  parsePyInt s

/-- The anchored groups of the ratio pattern of `_to_pct_tuple`
(optional whitespace, digits, optional whitespace, a dash or slash,
optional whitespace, digits, optional whitespace, end of string),
as a deterministic parse. -/
def pctGroups (s : String) : Option (List Char × List Char) :=
  let cs := s.data.dropWhile isPySpace
  let d1 := cs.takeWhile Char.isDigit
  let cs1 := cs.dropWhile Char.isDigit
  if d1.isEmpty then none
  else
    match cs1.dropWhile isPySpace with
    | [] => none
    | c :: rest =>
      if c = '-' || c = '/' then
        let rest1 := rest.dropWhile isPySpace
        let d2 := rest1.takeWhile Char.isDigit
        let rest2 := rest1.dropWhile Char.isDigit
        if d2.isEmpty then none
        else if (rest2.dropWhile isPySpace).isEmpty then some (d1, d2)
        else none
      else none

/-- `_to_pct_tuple` from `src/aggregate_totals.py`:
`'5-12'`/`'5/12'` become `(made, att)`, anything else `(None, None)`. -/
def toPctTuple (s : String) : Option ℕ × Option ℕ :=
  match pctGroups s with
  | none => (none, none)
  | some (d1, d2) => (some (digitsToNat d1), some (digitsToNat d2))

/-- The anchored groups of `^\s*(\d+):(\d{2})\s*$`
(the duration pattern of `_to_seconds_mmss`). -/
def mmssGroups (s : String) : Option (List Char × Char × Char) :=
  let cs := s.data.dropWhile isPySpace
  let d1 := cs.takeWhile Char.isDigit
  let cs1 := cs.dropWhile Char.isDigit
  if d1.isEmpty then none
  else
    match cs1 with
    | ':' :: a :: b :: rest =>
      if a.isDigit && b.isDigit && (rest.dropWhile isPySpace).isEmpty then
        some (d1, a, b)
      else none
    | _ => none

/-- `_to_seconds_mmss` from `src/aggregate_totals.py`. -/
def toSecondsMmss (s : String) : Option ℕ :=
  (mmssGroups s).map (fun g => 60 * digitsToNat g.1 + digitsToNat [g.2.1, g.2.2])

/-! ### `src/aggregate_totals.py`: tidy long format -/

/-- One input row of the per-game totals table handed to `tidy_totals`
(the columns produced by `_normalize_team_totals_df`). -/
structure TotalsRow where
  game_id : String
  away_team : String
  home_team : String
  stat : String
  away_value : String
  home_value : String
deriving DecidableEq

/-- One output row of `tidy_totals`: the raw columns plus `stat_norm` and
the shape-specific typed fields, all initialised to `None`. -/
structure TidyRow where
  game_id : String
  away_team : String
  home_team : String
  stat : String
  stat_norm : String
  away_val_raw : String
  home_val_raw : String
  away_val_int : Option Int
  home_val_int : Option Int
  away_made : Option ℕ
  away_att : Option ℕ
  home_made : Option ℕ
  home_att : Option ℕ
  away_seconds : Option ℕ
  home_seconds : Option ℕ
deriving DecidableEq

/-- The per-row body of `tidy_totals`: typed fields start as `None`, then
each of the three independent `if s in ...` blocks fills its own group. -/
def tidyRow (r : TotalsRow) : TidyRow :=
  let s := normalizeStatName r.stat
  let base : TidyRow :=
    { game_id := r.game_id, away_team := r.away_team, home_team := r.home_team,
      stat := r.stat, stat_norm := s,
      away_val_raw := r.away_value, home_val_raw := r.home_value,
      away_val_int := none, home_val_int := none,
      away_made := none, away_att := none, home_made := none, home_att := none,
      away_seconds := none, home_seconds := none }
  let base :=
    if INT_LIKE.contains s then
      { base with away_val_int := toIntSafe r.away_value,
                  home_val_int := toIntSafe r.home_value }
    else base
  let base :=
    if PCT_LIKE.contains s then
      { base with away_made := (toPctTuple r.away_value).1,
                  away_att := (toPctTuple r.away_value).2,
                  home_made := (toPctTuple r.home_value).1,
                  home_att := (toPctTuple r.home_value).2 }
    else base
  let base :=
    if TIME_LIKE.contains s then
      { base with away_seconds := toSecondsMmss r.away_value,
                  home_seconds := toSecondsMmss r.home_value }
    else base
  base

/-- `tidy_totals` from `src/aggregate_totals.py` (row-wise over the frame). -/
def tidyTotals (rows : List TotalsRow) : List TidyRow :=
  rows.map tidyRow

/-- The `ValueShape` of the specification's data model. -/
inductive ValueShape
  | integer
  | ratio
  | duration
deriving DecidableEq

/-- The shape declared for a canonical key by the three dictionaries
(`None` for slug-fallback keys, which appear in no dictionary). -/
def declaredShape (k : String) : Option ValueShape :=
  if INT_LIKE.contains k then some .integer
  else if PCT_LIKE.contains k then some .ratio
  else if TIME_LIKE.contains k then some .duration
  else none

/-- The integer group of a tidy row holds a value. -/
def intGroupPop (r : TidyRow) : Prop :=
  r.away_val_int ≠ none ∨ r.home_val_int ≠ none

/-- The ratio group of a tidy row holds a value. -/
def pctGroupPop (r : TidyRow) : Prop :=
  r.away_made ≠ none ∨ r.away_att ≠ none ∨ r.home_made ≠ none ∨ r.home_att ≠ none

/-- The duration group of a tidy row holds a value. -/
def timeGroupPop (r : TidyRow) : Prop :=
  r.away_seconds ≠ none ∨ r.home_seconds ≠ none

instance (r : TidyRow) : Decidable (intGroupPop r) := by
  unfold intGroupPop; infer_instance

instance (r : TidyRow) : Decidable (pctGroupPop r) := by
  unfold pctGroupPop; infer_instance

instance (r : TidyRow) : Decidable (timeGroupPop r) := by
  unfold timeGroupPop; infer_instance

/-! ### Theorems about the Stat Normalizer (claims C4, C5, C6) -/

lemma int_pct_disjoint (s : String) (h : s ∈ INT_LIKE) : s ∉ PCT_LIKE := by
  fin_cases h <;> decide

lemma int_time_disjoint (s : String) (h : s ∈ INT_LIKE) : s ∉ TIME_LIKE := by
  fin_cases h <;> decide

lemma pct_time_disjoint (s : String) (h : s ∈ PCT_LIKE) : s ∉ TIME_LIKE := by
  fin_cases h <;> decide

/-- C5: stat label normalization lowercases, collapses whitespace, unifies
dashes, then consults the alias table; the three spellings of the
third-down-conversion label share one canonical key, and any label whose
normalized form is not in the alias table becomes the slug of that
normalized form, so every label maps to some canonical key. -/
theorem C5_stat_label_normalization :
    (normalizeStatName "Third Down Conv." = "third_down_conv" ∧
     normalizeStatName "3rd down conv." = "third_down_conv" ∧
     normalizeStatName "third-down conv." = "third_down_conv") ∧
    ∀ s : String, statAliasLookup (preNormalize s) = none →
      normalizeStatName s = slugOf (preNormalize s) := by
  refine ⟨⟨by decide, by decide, by decide⟩, ?_⟩
  intro s h
  simp [normalizeStatName, h]

/-- Witness for C5 at the unmapped label "Sacks Allowed". -/
theorem C5_stat_label_normalization_witness :
    normalizeStatName "Sacks Allowed" = slugOf (preNormalize "Sacks Allowed") :=
  C5_stat_label_normalization.2 "Sacks Allowed" (by decide)

/-- C6: the shape-specific value parsers are total functions; the ratio
parser sends "5-12" and "5/12" to made 5 / attempted 12 and any
non-matching string to (None, None); the duration parser sends "7:03" to
423 seconds and any non-matching string (such as "703") to None. -/
theorem C6_shape_parsers_total :
    (toPctTuple "5-12" = (some 5, some 12) ∧
     toPctTuple "5/12" = (some 5, some 12) ∧
     toPctTuple "abc" = (none, none)) ∧
    (toSecondsMmss "7:03" = some 423 ∧ toSecondsMmss "703" = none) ∧
    (∀ s : String, pctGroups s = none → toPctTuple s = (none, none)) ∧
    (∀ s : String, mmssGroups s = none → toSecondsMmss s = none) := by
  refine ⟨⟨by decide, by decide, by decide⟩, ⟨by decide, by decide⟩, ?_, ?_⟩
  · intro s h; simp [toPctTuple, h]
  · intro s h; simp [toSecondsMmss, h]

/-- Witness for C6 at the non-matching inputs "n/a" and "1:2". -/
theorem C6_shape_parsers_total_witness :
    toPctTuple "n/a" = (none, none) ∧ toSecondsMmss "1:2" = none :=
  ⟨C6_shape_parsers_total.2.2.1 "n/a" (by decide),
   C6_shape_parsers_total.2.2.2 "1:2" (by decide)⟩

/-- An input row whose stat label is not in the alias table, so its
canonical key is the slug "sacks", which appears in none of the three
shape dictionaries. -/
def c4SlugRow : TotalsRow :=
  { game_id := "g1", away_team := "A", home_team := "H",
    stat := "Sacks", away_value := "3", home_value := "2" }

/-- C4 fails as stated: a normalized row whose canonical key is a slug
fallback ("sacks") has no declared ValueShape, and `tidy_totals` leaves
all three shape-specific field groups empty for it even though both raw
values parse as integers, so no group at all is populated rather than
exactly one. -/
theorem C4_counterexample :
    ¬ intGroupPop (tidyRow c4SlugRow) ∧ ¬ pctGroupPop (tidyRow c4SlugRow) ∧
    ¬ timeGroupPop (tidyRow c4SlugRow) ∧
    toIntSafe c4SlugRow.away_value = some 3 ∧
    toIntSafe c4SlugRow.home_value = some 2 ∧
    declaredShape (tidyRow c4SlugRow).stat_norm = none := by decide

/-- C4 (amended): for every row produced by `tidy_totals` whose canonical
key has a declared ValueShape, only the matching shape group is written —
it holds exactly the shape parser's output (so a parse failure leaves it
null) and the other two groups are null; rows whose canonical key is a
slug fallback (no declared shape) have all three groups null. -/
theorem C4_shape_group_invariant (r : TotalsRow) :
    (declaredShape (tidyRow r).stat_norm = some .integer →
      (tidyRow r).away_val_int = toIntSafe r.away_value ∧
      (tidyRow r).home_val_int = toIntSafe r.home_value ∧
      (tidyRow r).away_made = none ∧ (tidyRow r).away_att = none ∧
      (tidyRow r).home_made = none ∧ (tidyRow r).home_att = none ∧
      (tidyRow r).away_seconds = none ∧ (tidyRow r).home_seconds = none) ∧
    (declaredShape (tidyRow r).stat_norm = some .ratio →
      (tidyRow r).away_made = (toPctTuple r.away_value).1 ∧
      (tidyRow r).away_att = (toPctTuple r.away_value).2 ∧
      (tidyRow r).home_made = (toPctTuple r.home_value).1 ∧
      (tidyRow r).home_att = (toPctTuple r.home_value).2 ∧
      (tidyRow r).away_val_int = none ∧ (tidyRow r).home_val_int = none ∧
      (tidyRow r).away_seconds = none ∧ (tidyRow r).home_seconds = none) ∧
    (declaredShape (tidyRow r).stat_norm = some .duration →
      (tidyRow r).away_seconds = toSecondsMmss r.away_value ∧
      (tidyRow r).home_seconds = toSecondsMmss r.home_value ∧
      (tidyRow r).away_val_int = none ∧ (tidyRow r).home_val_int = none ∧
      (tidyRow r).away_made = none ∧ (tidyRow r).away_att = none ∧
      (tidyRow r).home_made = none ∧ (tidyRow r).home_att = none) ∧
    (declaredShape (tidyRow r).stat_norm = none →
      (tidyRow r).away_val_int = none ∧ (tidyRow r).home_val_int = none ∧
      (tidyRow r).away_made = none ∧ (tidyRow r).away_att = none ∧
      (tidyRow r).home_made = none ∧ (tidyRow r).home_att = none ∧
      (tidyRow r).away_seconds = none ∧ (tidyRow r).home_seconds = none) := by
  by_cases hI : normalizeStatName r.stat ∈ INT_LIKE
  · have hP := int_pct_disjoint _ hI
    have hT := int_time_disjoint _ hI
    simp [tidyRow, declaredShape, hI, hP, hT]
  · by_cases hP : normalizeStatName r.stat ∈ PCT_LIKE
    · have hT := pct_time_disjoint _ hP
      simp [tidyRow, declaredShape, hI, hP, hT]
    · by_cases hT : normalizeStatName r.stat ∈ TIME_LIKE
      · simp [tidyRow, declaredShape, hI, hP, hT]
      · simp [tidyRow, declaredShape, hI, hP, hT]

/-- An integer-shaped row whose home value fails the integer parse. -/
def c4IntRow : TotalsRow :=
  { game_id := "g1", away_team := "A", home_team := "H",
    stat := "Total Yards", away_value := "350", home_value := "abc" }

/-- Witness for C4 (amended) at a declared-integer row with one
unparsable value. -/
theorem C4_shape_group_invariant_witness :
    (tidyRow c4IntRow).away_val_int = some 350 ∧
    (tidyRow c4IntRow).home_val_int = none ∧
    (tidyRow c4IntRow).away_made = none ∧
    (tidyRow c4IntRow).away_seconds = none := by
  obtain ⟨h1, h2, h3, -, -, -, h7, -⟩ :=
    (C4_shape_group_invariant c4IntRow).1 (by decide)
  exact ⟨h1.trans (by decide), h2.trans (by decide), h3, h7⟩

/-! ### `src/linescore.py`: DOM model

A parsed page is modelled as a list of tables; a table row is a flat list
of cells (`find_all(["td", "th"], recursive=False)`); a cell carries its
optional `data-stat` attribute, its visible text (the result of
`get_text(..., strip=True)` before stripping), and its anchors in document
order. -/

/-- `listStartsWith pat cs`: `cs` begins with `pat`. -/
def listStartsWith : List Char → List Char → Bool
  | [], _ => true
  | _ :: _, [] => false
  | p :: ps, c :: cs => p == c && listStartsWith ps cs

def listContainsSub (pat : List Char) : List Char → Bool
  | [] => pat.isEmpty
  | c :: cs => listStartsWith pat (c :: cs) || listContainsSub pat cs

/-- Python `pat in s` (substring test). -/
def strContains (s pat : String) : Bool :=
  listContainsSub pat.data s.data

/-- Python `s.replace(pat, "")`: removes each non-overlapping occurrence,
left to right.  The fuel is the length of the remaining text. -/
def removeSubFuel (pat : List Char) : ℕ → List Char → List Char
  | _, [] => []
  | 0, cs => cs
  | fuel + 1, c :: cs =>
    if pat.isEmpty then c :: cs
    else if listStartsWith pat (c :: cs) then
      removeSubFuel pat fuel (List.drop (pat.length - 1) cs)
    else c :: removeSubFuel pat fuel cs

def pyRemoveAll (s pat : String) : String :=
  String.mk (removeSubFuel pat.data s.data.length s.data)

/-- `JUNK_STRINGS` from `src/linescore.py`. -/
def JUNK_STRINGS : List String :=
  ["via Sports Logos.net", "About logos"]

/-- `_clean_team_name` from `src/linescore.py`. -/
def cleanTeamName (name : String) : String :=
  let t := pyStrip name
  let t := JUNK_STRINGS.foldl
    (fun acc junk => if strContains acc junk then pyRemoveAll acc junk else acc) t
  pyStrip t

structure Anchor where
  href : Option String
  text : String
deriving DecidableEq

structure Cell where
  dataStat : Option String
  text : String
  anchors : List Anchor
deriving DecidableEq

abbrev DomRow := List Cell

structure Table where
  id : Option String
  classes : List String
  tbody : Option (List DomRow)
deriving DecidableEq

/-- `_get_int` from `src/linescore.py`: `None` for a missing cell, empty
text, or a failed `int(...)`. -/
def getIntCell : Option Cell → Option Int
  | none => none
  | some c =>
    let txt := pyStrip c.text
    if txt = "" then none else parsePyInt txt

/-- `_select_first` from `src/linescore.py`: the first candidate
`data-stat` key that matches some cell of the row wins. -/
def selectFirst (tr : DomRow) (keys : List String) : Option Cell :=
  match keys with
  | [] => none
  | k :: ks =>
    match tr.find? (fun c => c.dataStat == some k) with
    | some c => some c
    | none => selectFirst tr ks

/-- The first loop of `_parse_row_no_datastat`: the first cell whose first
href-carrying anchor links into `/teams/` is the team column. -/
def findTeamIdx : List Cell → ℕ → Option (ℕ × String)
  | [], _ => none
  | c :: cs, i =>
    match c.anchors.find? (fun a => a.href.isSome) with
    | some a =>
      if strContains (a.href.getD "") "/teams/" then some (i, pyStrip a.text)
      else findTeamIdx cs (i + 1)
    | none => findTeamIdx cs (i + 1)

/-- The second loop of `_parse_row_no_datastat`: fall back to the first
cell with non-empty text. -/
def findTextIdx : List Cell → ℕ → Option (ℕ × String)
  | [], _ => none
  | c :: cs, i =>
    if pyStrip c.text ≠ "" then some (i, pyStrip c.text) else findTextIdx cs (i + 1)

/-- The positional-fallback record built by `_parse_row_no_datastat`. -/
structure FallbackRow where
  team : String
  q1 : Option Int
  q2 : Option Int
  q3 : Option Int
  q4 : Option Int
  ot : Option Int
  total : Option Int
deriving DecidableEq

/-- The numeric cells after the entity column (`_get_int` values that are
not `None`, in order). -/
def numericValsFrom (cells : List Cell) (teamIdx : ℕ) : List Int :=
  (cells.drop (teamIdx + 1)).filterMap (fun c => getIntCell (some c))

/-- The straight-line assignment block of `_parse_row_no_datastat` after
`numeric_vals` has been collected (source lines 81-103). -/
def assignVals (team : String) (vs : List Int) : FallbackRow :=
  let q1 := vs[0]?
  let q2 := vs[1]?
  let q3 := vs[2]?
  let q4 := vs[3]?
  let total := vs.getLast?
  if 5 < vs.length then
    { team := team, q1 := q1, q2 := q2, q3 := q3, q4 := q4,
      ot := some (((vs.drop 4).dropLast).sum), total := total }
  else if vs.length = 5 then
    { team := team, q1 := q1, q2 := q2, q3 := q3, q4 := q4,
      ot := none, total := total }
  else if vs.length = 4 then
    { team := team, q1 := q1, q2 := q2, q3 := q3, q4 := q4,
      ot := none, total := none }
  else
    { team := team, q1 := q1, q2 := q2, q3 := q3, q4 := q4,
      ot := none, total := total }

/-- `_parse_row_no_datastat` from `src/linescore.py`. -/
def parseRowNoDatastat (cells : List Cell) : Option FallbackRow :=
  if cells.isEmpty then none
  else
    let found :=
      match findTeamIdx cells 0 with
      | some p => some p
      | none => findTextIdx cells 0
    let teamName := cleanTeamName (match found with | some p => p.2 | none => "")
    let vs := match found with | some p => numericValsFrom cells p.1 | none => []
    if vs.isEmpty then
      some { team := teamName, q1 := none, q2 := none, q3 := none, q4 := none,
             ot := none, total := none }
    else some (assignVals teamName vs)

/-- `_find_linescore_table` from `src/linescore.py`: by id, else by a
class containing "linescore". -/
def findLinescoreTable (tables : List Table) : Option Table :=
  match tables.find? (fun t => t.id == some "linescore") with
  | some t => some t
  | none => tables.find? (fun t => t.classes.any (fun c => strContains c "linescore"))

def Q1_KEYS : List String := ["q1", "1", "pts_q1", "pts1"]
def Q2_KEYS : List String := ["q2", "2", "pts_q2", "pts2"]
def Q3_KEYS : List String := ["q3", "3", "pts_q3", "pts3"]
def Q4_KEYS : List String := ["q4", "4", "pts_q4", "pts4"]
def OT_KEYS : List String := ["ot", "pts_ot"]
def TOTAL_KEYS : List String := ["total", "t", "pts", "pts_total"]
def TEAM_KEYS : List String := ["team", "tm"]

/-- The attribute-keyed team lookup of `_parse_linescore_from_dom`
(source lines 129-136): the team cell's first anchor text if non-empty,
else the cell text; `None` when no team cell matches. -/
def teamFromAttr (tr : DomRow) : Option String :=
  match selectFirst tr TEAM_KEYS with
  | none => none
  | some cell =>
    match cell.anchors.head? with
    | some a => if pyStrip a.text ≠ "" then some (pyStrip a.text) else some (pyStrip cell.text)
    | none => some (pyStrip cell.text)

/-- One output row of `_parse_linescore_from_dom`. -/
structure SideRow where
  side : String
  team : String
  q1 : Option Int
  q2 : Option Int
  q3 : Option Int
  q4 : Option Int
  ot : Option Int
  total : Option Int
deriving DecidableEq

/-- The merge rule of `_parse_linescore_from_dom` (source lines 147-150):
the attribute-keyed value if present, else the fallback value. -/
def orFb (a b : Option Int) : Option Int :=
  match a with
  | some v => some v
  | none => b

/-- The per-row body of `_parse_linescore_from_dom` (source lines
124-163): attribute-keyed lookups first, then positional fallback fills
each field the attribute pass left as `None`. -/
def parseSideRow (side : String) (tr : DomRow) : SideRow :=
  let fallback := parseRowNoDatastat tr
  let tn0 :=
    match teamFromAttr tr with
    | some t => t
    | none => match fallback with | some f => f.team | none => ""
  let tn := cleanTeamName tn0
  let vq1 := getIntCell (selectFirst tr Q1_KEYS)
  let vq2 := getIntCell (selectFirst tr Q2_KEYS)
  let vq3 := getIntCell (selectFirst tr Q3_KEYS)
  let vq4 := getIntCell (selectFirst tr Q4_KEYS)
  let vot := getIntCell (selectFirst tr OT_KEYS)
  let vtotal := getIntCell (selectFirst tr TOTAL_KEYS)
  match fallback with
  | some f =>
    { side := side, team := if tn = "" then f.team else tn,
      q1 := orFb vq1 f.q1, q2 := orFb vq2 f.q2, q3 := orFb vq3 f.q3,
      q4 := orFb vq4 f.q4, ot := orFb vot f.ot, total := orFb vtotal f.total }
  | none =>
    { side := side, team := tn,
      q1 := vq1, q2 := vq2, q3 := vq3, q4 := vq4, ot := vot, total := vtotal }

/-- `_parse_linescore_from_dom` from `src/linescore.py`: `None` without a
linescore table, a tbody, or two tbody rows; otherwise exactly the away
row parsed from the first tbody row and the home row from the second. -/
def parseLinescoreFromDom (tables : List Table) : Option (List SideRow) :=
  match findLinescoreTable tables with
  | none => none
  | some t =>
    match t.tbody with
    | none => none
    | some trs =>
      match trs with
      | r0 :: r1 :: _ => some [parseSideRow "away" r0, parseSideRow "home" r1]
      | _ => none

/-- A row of the frame returned by `fetch_linescore`, with the inserted
`game_id` column. -/
structure GameSideRow where
  game_id : String
  row : SideRow
deriving DecidableEq

/-- `fetch_linescore` from `src/linescore.py`, modelled from the point
where the fetched markup has been parsed into tables: lowercase the game
id, parse the linescore, return `None` for a missing or empty frame. -/
def fetchLinescoreModel (tables : List Table) (gameId : String) : Option (List GameSideRow) :=
  let gid := pyLower gameId
  match parseLinescoreFromDom tables with
  | none => none
  | some rs =>
    if rs.isEmpty then none
    else some (rs.map (fun r => { game_id := gid, row := r }))

/-! ### Theorems about the Row Extractor (claims C3, C8, C10) -/

/-- An entity cell whose anchor links into `/teams/`. -/
def c3TeamCell : Cell :=
  { dataStat := none, text := "Foo",
    anchors := [{ href := some "/teams/foo/2020.htm", text := "Foo" }] }

/-- A plain numeric cell with no `data-stat` attribute. -/
def c3NumCell (s : String) : Cell :=
  { dataStat := none, text := s, anchors := [] }

/-- A positional row with five numeric cells after the entity cell. -/
def c3Row5 : List Cell :=
  [c3TeamCell, c3NumCell "7", c3NumCell "3", c3NumCell "0", c3NumCell "4", c3NumCell "14"]

/-- C3 fails as stated for n = 5: the claim says no value is assigned
beyond Q4 (total stays null), but `_parse_row_no_datastat` sets
`total = numeric_vals[-1]`, so the fifth value 14 lands in `total`. -/
theorem C3_counterexample :
    numericValsFrom c3Row5 0 = [7, 3, 0, 4, 14] ∧
    parseRowNoDatastat c3Row5 =
      some { team := "Foo", q1 := some 7, q2 := some 3, q3 := some 0, q4 := some 4,
             ot := none, total := some 14 } := by decide

/-- C3 (amended): in positional fallback mode with n numeric cells after
the entity cell: n = 4 gives q1..q4 with ot and total null; n = 5 gives
q1..q4 from the first four values, ot null, and total equal to the fifth
value; n ≥ 6 gives total equal to the last value and ot equal to the sum
of the values between the fourth and the last. -/
theorem C3_positional_rules (cells : List Cell) (i : ℕ) (nm : String) (vs : List Int)
    (hT : findTeamIdx cells 0 = some (i, nm))
    (hv : numericValsFrom cells i = vs) (hne : vs ≠ []) :
    parseRowNoDatastat cells = some (assignVals (cleanTeamName nm) vs) ∧
    (vs.length = 4 → assignVals (cleanTeamName nm) vs =
      { team := cleanTeamName nm, q1 := vs[0]?, q2 := vs[1]?, q3 := vs[2]?, q4 := vs[3]?,
        ot := none, total := none }) ∧
    (vs.length = 5 → assignVals (cleanTeamName nm) vs =
      { team := cleanTeamName nm, q1 := vs[0]?, q2 := vs[1]?, q3 := vs[2]?, q4 := vs[3]?,
        ot := none, total := vs[4]? }) ∧
    (6 ≤ vs.length → assignVals (cleanTeamName nm) vs =
      { team := cleanTeamName nm, q1 := vs[0]?, q2 := vs[1]?, q3 := vs[2]?, q4 := vs[3]?,
        ot := some (((vs.drop 4).dropLast).sum), total := vs.getLast? }) := by
  refine ⟨?_, ?_, ?_, ?_⟩
  · have hcells : ¬ cells.isEmpty = true := by
      intro h
      rw [List.isEmpty_iff] at h
      subst h
      simp [findTeamIdx] at hT
    simp only [parseRowNoDatastat, hT, hv]
    rw [if_neg hcells, if_neg (by simpa [List.isEmpty_iff] using hne)]
  · intro h4
    simp [assignVals, h4]
  · intro h5
    have hlast : vs.getLast? = vs[4]? := by rw [List.getLast?_eq_getElem?, h5]
    simp [assignVals, h5, hlast]
  · intro h6
    have h5lt : 5 < vs.length := by omega
    have h45 : vs.length ≠ 5 := by omega
    simp [assignVals, h5lt, h45]

/-- A positional row with six numeric cells after the entity cell. -/
def c3Row6 : List Cell :=
  [c3TeamCell, c3NumCell "7", c3NumCell "3", c3NumCell "0", c3NumCell "4",
   c3NumCell "6", c3NumCell "20"]

/-- Witness for C3 (amended) at a six-value row. -/
theorem C3_positional_rules_witness :
    parseRowNoDatastat c3Row6 =
      some { team := "Foo", q1 := some 7, q2 := some 3, q3 := some 0, q4 := some 4,
             ot := some 6, total := some 20 } := by
  have h := C3_positional_rules c3Row6 0 "Foo" [7, 3, 0, 4, 6, 20]
    (by decide) (by decide) (by decide)
  rw [h.1, h.2.2.2 (by decide)]
  decide

/-- C8: in `_parse_linescore_from_dom`, attribute-keyed (`data-stat`)
values take precedence; the positional fallback result is used for a
score field only when the attribute-keyed pass left it `None`, and for
the team name only when the attribute-keyed team is missing or empty. -/
theorem C8_attr_precedence (side : String) (tr : DomRow) :
    ((parseSideRow side tr).q1 =
      orFb (getIntCell (selectFirst tr Q1_KEYS)) ((parseRowNoDatastat tr).bind FallbackRow.q1)) ∧
    ((parseSideRow side tr).q2 =
      orFb (getIntCell (selectFirst tr Q2_KEYS)) ((parseRowNoDatastat tr).bind FallbackRow.q2)) ∧
    ((parseSideRow side tr).q3 =
      orFb (getIntCell (selectFirst tr Q3_KEYS)) ((parseRowNoDatastat tr).bind FallbackRow.q3)) ∧
    ((parseSideRow side tr).q4 =
      orFb (getIntCell (selectFirst tr Q4_KEYS)) ((parseRowNoDatastat tr).bind FallbackRow.q4)) ∧
    ((parseSideRow side tr).ot =
      orFb (getIntCell (selectFirst tr OT_KEYS)) ((parseRowNoDatastat tr).bind FallbackRow.ot)) ∧
    ((parseSideRow side tr).total =
      orFb (getIntCell (selectFirst tr TOTAL_KEYS)) ((parseRowNoDatastat tr).bind FallbackRow.total)) ∧
    (∀ t, teamFromAttr tr = some t → cleanTeamName t ≠ "" →
      (parseSideRow side tr).team = cleanTeamName t) ∧
    (teamFromAttr tr = none → ∀ f, parseRowNoDatastat tr = some f →
      (parseSideRow side tr).team =
        (if cleanTeamName f.team = "" then f.team else cleanTeamName f.team)) := by
  have horFb : ∀ a : Option Int, orFb a none = a := fun a => by cases a <;> rfl
  refine ⟨?_, ?_, ?_, ?_, ?_, ?_, ?_, ?_⟩
  · cases hf : parseRowNoDatastat tr <;> simp [parseSideRow, hf, horFb]
  · cases hf : parseRowNoDatastat tr <;> simp [parseSideRow, hf, horFb]
  · cases hf : parseRowNoDatastat tr <;> simp [parseSideRow, hf, horFb]
  · cases hf : parseRowNoDatastat tr <;> simp [parseSideRow, hf, horFb]
  · cases hf : parseRowNoDatastat tr <;> simp [parseSideRow, hf, horFb]
  · cases hf : parseRowNoDatastat tr <;> simp [parseSideRow, hf, horFb]
  · intro t ht hne
    cases hf : parseRowNoDatastat tr <;> simp [parseSideRow, hf, ht, hne]
  · intro ht f hf2
    cases hf : parseRowNoDatastat tr with
    | none => rw [hf] at hf2; cases hf2
    | some g =>
      rw [hf] at hf2
      injection hf2 with h
      subst h
      simp [parseSideRow, hf, ht]

/-- A row whose team and q1 come from `data-stat` attributes while a
positional parse would also find values. -/
def c8Tr : DomRow :=
  [{ dataStat := some "team", text := "Bears", anchors := [] },
   { dataStat := some "q1", text := "7", anchors := [] },
   c3NumCell "3"]

/-- Witness for C8: on a row with an attribute-keyed team cell, the
attribute value wins. -/
theorem C8_attr_precedence_witness :
    (parseSideRow "away" c8Tr).team = cleanTeamName "Bears" :=
  (C8_attr_precedence "away" c8Tr).2.2.2.2.2.2.1 "Bears" (by decide) (by decide)

/-- C10: the linescore parser returns `None` exactly when the page lacks
a linescore table, the table lacks a tbody, or the tbody has fewer than
two rows; otherwise it returns exactly two rows, away from the first
tbody row and home from the second, however many rows the table has. -/
theorem C10_linescore_two_rows (tables : List Table) (gameId : String) :
    (findLinescoreTable tables = none →
      parseLinescoreFromDom tables = none ∧ fetchLinescoreModel tables gameId = none) ∧
    (∀ t, findLinescoreTable tables = some t → t.tbody = none →
      parseLinescoreFromDom tables = none ∧ fetchLinescoreModel tables gameId = none) ∧
    (∀ t trs, findLinescoreTable tables = some t → t.tbody = some trs → trs.length < 2 →
      parseLinescoreFromDom tables = none ∧ fetchLinescoreModel tables gameId = none) ∧
    (∀ t r0 r1 rest, findLinescoreTable tables = some t → t.tbody = some (r0 :: r1 :: rest) →
      parseLinescoreFromDom tables =
        some [parseSideRow "away" r0, parseSideRow "home" r1] ∧
      fetchLinescoreModel tables gameId =
        some [{ game_id := pyLower gameId, row := parseSideRow "away" r0 },
              { game_id := pyLower gameId, row := parseSideRow "home" r1 }]) := by
  refine ⟨?_, ?_, ?_, ?_⟩
  · intro h
    constructor <;> simp [parseLinescoreFromDom, fetchLinescoreModel, h]
  · intro t h1 h2
    constructor <;> simp [parseLinescoreFromDom, fetchLinescoreModel, h1, h2]
  · intro t trs h1 h2 hlen
    rcases trs with _ | ⟨ra, _ | ⟨rb, rest⟩⟩
    · constructor <;> simp [parseLinescoreFromDom, fetchLinescoreModel, h1, h2]
    · constructor <;> simp [parseLinescoreFromDom, fetchLinescoreModel, h1, h2]
    · exact absurd hlen (by simp [List.length_cons])
  · intro t r0 r1 rest h1 h2
    constructor <;> simp [parseLinescoreFromDom, fetchLinescoreModel, h1, h2]

/-- A three-row linescore table: the third tbody row must be ignored. -/
def c10RowA : DomRow := [c3TeamCell, c3NumCell "7", c3NumCell "3", c3NumCell "0", c3NumCell "4"]

def c10RowB : DomRow := [c3TeamCell, c3NumCell "0", c3NumCell "0", c3NumCell "7", c3NumCell "7"]

def c10RowC : DomRow := [c3NumCell "ignored"]

def c10Table : Table :=
  { id := some "linescore", classes := [], tbody := some [c10RowA, c10RowB, c10RowC] }

def c10Tables : List Table := [c10Table]

/-- Witness for C10 at a table with three tbody rows. -/
theorem C10_linescore_two_rows_witness :
    parseLinescoreFromDom c10Tables =
      some [parseSideRow "away" c10RowA, parseSideRow "home" c10RowB] ∧
    fetchLinescoreModel c10Tables "G1" =
      some [{ game_id := pyLower "G1", row := parseSideRow "away" c10RowA },
            { game_id := pyLower "G1", row := parseSideRow "home" c10RowB }] :=
  (C10_linescore_two_rows c10Tables "G1").2.2.2 c10Table c10RowA c10RowB [c10RowC]
    (by decide) (by decide)

/-! ### `src/fetch.py`: the polite fetch layer

State: a rational wall clock, the module-level `_last_request_ts`, the
`requests_cache` store (keyed by URL, with the stored-at time), the
scripted sequence of network responses the remote host will produce, and
a log of the sleeps performed on 429 responses.  `requests_cache` is
installed on the session, so a cache hit happens inside `SESSION.get`;
it stores 200 responses and serves unexpired entries without touching
the network. -/

structure FetchCfg where
  minInterval : ℚ
  maxAttempts : ℕ
  retryAfterCap : ℚ
  cacheSecs : ℚ
deriving DecidableEq

structure CacheEntry where
  body : String
  storedAt : ℚ
deriving DecidableEq

inductive NetEvent
  | exc
  | resp (status : ℕ) (retryAfter : Option String) (body : String)
deriving DecidableEq

structure FetchState where
  clock : ℚ
  lastRequestTs : ℚ
  cache : List (String × CacheEntry)
  net : List NetEvent
  rlSleeps : List ℚ
deriving DecidableEq

/-- `_sleep_min_interval` from `src/fetch.py`: wait out the remainder of
the minimum interval (plus jitter) if needed, then record now as the new
pacing baseline. -/
def sleepMinInterval (cfg : FetchCfg) (jitter : ℚ) (s : FetchState) : FetchState :=
  let elapsed := s.clock - s.lastRequestTs
  let waitFor := cfg.minInterval - elapsed
  if 0 < waitFor then
    let c := s.clock + waitFor + jitter
    { s with clock := c, lastRequestTs := c }
  else
    { s with lastRequestTs := s.clock }

/-- Python `float(s)` on plain decimal strings (the Retry-After header
forms this scraper meets); exponent and infinity forms are outside the
modelled domain. -/
def parseDecimalQ (cs : List Char) : Option ℚ :=
  let ip := cs.takeWhile Char.isDigit
  let rest := cs.dropWhile Char.isDigit
  match rest with
  | [] => if ip.isEmpty then none else some (digitsToNat ip : ℚ)
  | '.' :: fp =>
    if fp.all Char.isDigit && !(ip.isEmpty && fp.isEmpty) then
      some ((digitsToNat ip : ℚ) + (digitsToNat fp : ℚ) / ((10 : ℚ) ^ fp.length))
    else none
  | _ => none

def parsePyFloat (s : String) : Option ℚ :=
  match pyStripChars s.data with
  | [] => none
  | '-' :: ds => (parseDecimalQ ds).map (fun q => -q)
  | '+' :: ds => parseDecimalQ ds
  | ds => parseDecimalQ ds

/-- `_retry_after_seconds` from `src/fetch.py`: the header value clamped
to `[0, cap]`, or `min(cap, 10)` when absent or unparsable. -/
def retryAfterSeconds (cfg : FetchCfg) (ra : Option String) : ℚ :=
  match ra with
  | none => min cfg.retryAfterCap 10
  | some v =>
    match parsePyFloat v with
    | some sec => min cfg.retryAfterCap (max 0 sec)
    | none => min cfg.retryAfterCap 10

/-- The deterministic base of `_backoff_delay`
(`min(8.0 * 2 ** (attempt - 1), 30.0)`); the jitter summand is passed
separately. -/
def backoffDelayBase (attempt : ℕ) : ℚ :=
  min (8 * 2 ^ (attempt - 1)) 30

/-- The `requests_cache` lookup: an entry serves if present and younger
than the configured expiry. -/
def cacheLookup (cfg : FetchCfg) (s : FetchState) (url : String) : Option String :=
  match s.cache.find? (fun p => p.fst == url) with
  | some p => if s.clock - p.snd.storedAt < cfg.cacheSecs then some p.snd.body else none
  | none => none

inductive SessResult
  | cached (body : String)
  | netExc
  | netResp (status : ℕ) (retryAfter : Option String) (body : String)
deriving DecidableEq

/-- `SESSION.get` with `requests_cache` installed: serve a valid cache
entry without touching the network; otherwise consume the next scripted
network event, storing a 200 response into the cache. -/
def sessionGet (cfg : FetchCfg) (url : String) (s : FetchState) : SessResult × FetchState :=
  match cacheLookup cfg s url with
  | some body => (.cached body, s)
  | none =>
    match s.net with
    | [] => (.netExc, s)
    | e :: rest =>
      let s1 := { s with net := rest }
      match e with
      | .exc => (.netExc, s1)
      | .resp status ra body =>
        if status = 200 then
          (.netResp status ra body,
           { s1 with cache := (url, { body := body, storedAt := s1.clock }) :: s1.cache })
        else (.netResp status ra body, s1)

/-- The possible results of `get`: a body, or the `FetchError` raised on
each exit path (plus the distinct rate-limited failure of the
policy-aware variant). -/
inductive GetOutcome
  | ok (body : String)
  | errRequest
  | err429GaveUp
  | errServer (status : ℕ)
  | errBadStatus (status : ℕ)
  | errExhausted
  | rateLimited
deriving DecidableEq

structure GetRun where
  outcome : GetOutcome
  state : FetchState
  attemptsUsed : ℕ
deriving DecidableEq

/-- `time.sleep` for backoff delays. -/
def sleepFor (d : ℚ) (s : FetchState) : FetchState :=
  { s with clock := s.clock + d }

/-- `time.sleep` on the 429 path, logged. -/
def sleep429 (d : ℚ) (s : FetchState) : FetchState :=
  { s with clock := s.clock + d, rlSleeps := s.rlSleeps ++ [d] }

/-- The attempt loop of `get` from `src/fetch.py`.  The fuel is the
number of remaining loop iterations (`maxAttempts - attempt + 1` at every
call); `attempt` is the 1-based loop counter.  Each iteration throttles
first, then issues the (possibly cache-served) request and classifies the
result exactly as the source does. -/
def getAux (cfg : FetchCfg) (jmin jboff j429 : ℕ → ℚ) (url : String) :
    ℕ → ℕ → FetchState → GetRun
  | 0, attempt, s => { outcome := .errExhausted, state := s, attemptsUsed := attempt - 1 }
  | rem + 1, attempt, s =>
    let s1 := sleepMinInterval cfg (jmin attempt) s
    match sessionGet cfg url s1 with
    | (.cached body, s2) =>
      if body ≠ "" then { outcome := .ok body, state := s2, attemptsUsed := attempt }
      else { outcome := .errBadStatus 200, state := s2, attemptsUsed := attempt }
    | (.netExc, s2) =>
      if cfg.maxAttempts ≤ attempt then
        { outcome := .errRequest, state := s2, attemptsUsed := attempt }
      else
        getAux cfg jmin jboff j429 url rem (attempt + 1)
          (sleepFor (backoffDelayBase attempt + jboff attempt) s2)
    | (.netResp status ra body, s2) =>
      if status = 200 ∧ body ≠ "" then
        { outcome := .ok body, state := s2, attemptsUsed := attempt }
      else if status = 429 then
        if cfg.maxAttempts ≤ attempt then
          { outcome := .err429GaveUp, state := s2, attemptsUsed := attempt }
        else
          getAux cfg jmin jboff j429 url rem (attempt + 1)
            (sleep429 (retryAfterSeconds cfg ra + j429 attempt) s2)
      else if 500 ≤ status ∨ status = 408 then
        if cfg.maxAttempts ≤ attempt then
          { outcome := .errServer status, state := s2, attemptsUsed := attempt }
        else
          getAux cfg jmin jboff j429 url rem (attempt + 1)
            (sleepFor (backoffDelayBase attempt + jboff attempt) s2)
      else { outcome := .errBadStatus status, state := s2, attemptsUsed := attempt }

/-- `get` from `src/fetch.py`. -/
def pfrGet (cfg : FetchCfg) (jmin jboff j429 : ℕ → ℚ) (url : String)
    (s : FetchState) : GetRun :=
  getAux cfg jmin jboff j429 url cfg.maxAttempts 1 s

inductive RatePolicy
  | backoff
  | skip
deriving DecidableEq

/-- Modelled from the spec: the policy-aware fetch variant is missing
from `src/` — `run_linescore.py` imports `RateLimited` from `src.fetch`
and sets `PFR_POLICY=skip`, but `src/fetch.py` defines neither the
exception nor the policy switch.  Following §4.3 of the spec, this
variant behaves exactly like `get` except on HTTP 429, where policy
`skip` surfaces the distinct rate-limited failure immediately instead of
sleeping and retrying. -/
def policyGetAux (policy : RatePolicy) (cfg : FetchCfg) (jmin jboff j429 : ℕ → ℚ)
    (url : String) : ℕ → ℕ → FetchState → GetRun
  | 0, attempt, s => { outcome := .errExhausted, state := s, attemptsUsed := attempt - 1 }
  | rem + 1, attempt, s =>
    let s1 := sleepMinInterval cfg (jmin attempt) s
    match sessionGet cfg url s1 with
    | (.cached body, s2) =>
      if body ≠ "" then { outcome := .ok body, state := s2, attemptsUsed := attempt }
      else { outcome := .errBadStatus 200, state := s2, attemptsUsed := attempt }
    | (.netExc, s2) =>
      if cfg.maxAttempts ≤ attempt then
        { outcome := .errRequest, state := s2, attemptsUsed := attempt }
      else
        policyGetAux policy cfg jmin jboff j429 url rem (attempt + 1)
          (sleepFor (backoffDelayBase attempt + jboff attempt) s2)
    | (.netResp status ra body, s2) =>
      if status = 200 ∧ body ≠ "" then
        { outcome := .ok body, state := s2, attemptsUsed := attempt }
      else if status = 429 then
        match policy with
        | .skip => { outcome := .rateLimited, state := s2, attemptsUsed := attempt }
        | .backoff =>
          if cfg.maxAttempts ≤ attempt then
            { outcome := .err429GaveUp, state := s2, attemptsUsed := attempt }
          else
            policyGetAux policy cfg jmin jboff j429 url rem (attempt + 1)
              (sleep429 (retryAfterSeconds cfg ra + j429 attempt) s2)
      else if 500 ≤ status ∨ status = 408 then
        if cfg.maxAttempts ≤ attempt then
          { outcome := .errServer status, state := s2, attemptsUsed := attempt }
        else
          policyGetAux policy cfg jmin jboff j429 url rem (attempt + 1)
            (sleepFor (backoffDelayBase attempt + jboff attempt) s2)
      else { outcome := .errBadStatus status, state := s2, attemptsUsed := attempt }

/-- The policy-aware fetch entry point (spec-modelled, see
`policyGetAux`). -/
def policyGet (policy : RatePolicy) (cfg : FetchCfg) (jmin jboff j429 : ℕ → ℚ)
    (url : String) (s : FetchState) : GetRun :=
  policyGetAux policy cfg jmin jboff j429 url cfg.maxAttempts 1 s

/-! ### Theorems about the Resilient Fetcher (claims C1, C2) -/

lemma sleepMinInterval_cache (cfg : FetchCfg) (j : ℚ) (s : FetchState) :
    (sleepMinInterval cfg j s).cache = s.cache := by
  simp only [sleepMinInterval]; split <;> rfl

lemma sleepMinInterval_net (cfg : FetchCfg) (j : ℚ) (s : FetchState) :
    (sleepMinInterval cfg j s).net = s.net := by
  simp only [sleepMinInterval]; split <;> rfl

lemma sleepMinInterval_rlSleeps (cfg : FetchCfg) (j : ℚ) (s : FetchState) :
    (sleepMinInterval cfg j s).rlSleeps = s.rlSleeps := by
  simp only [sleepMinInterval]; split <;> rfl

/-- Under the `backoff` policy, the spec-modelled policy-aware fetch is
the same function as the translated `get` from `src/fetch.py`. -/
lemma policyGetAux_backoff_agrees (cfg : FetchCfg) (jm jb j4 : ℕ → ℚ) (url : String) :
    ∀ fuel attempt s, policyGetAux .backoff cfg jm jb j4 url fuel attempt s =
      getAux cfg jm jb j4 url fuel attempt s := by
  intro fuel
  induction fuel with
  | zero => intro a s; rfl
  | succ n ih =>
    intro a s
    simp only [policyGetAux, getAux]
    cases hsg : sessionGet cfg url (sleepMinInterval cfg (jm a) s) with
    | mk r s2 =>
      cases r with
      | cached body => rfl
      | netExc => split <;> simp [ih]
      | netResp status ra body =>
        by_cases h200 : status = 200 ∧ body ≠ ""
        · simp [h200]
        · by_cases h429 : status = 429
          · simp [h200, h429, ih]
          · by_cases hsrv : 500 ≤ status ∨ status = 408
            · simp [h200, h429, hsrv, ih]
            · simp [h200, h429, hsrv]

lemma skip_429_immediate (cfg : FetchCfg) (jm jb j4 : ℕ → ℚ) (url : String)
    (s : FetchState) (ra : Option String) (rb : String) (rest : List NetEvent)
    (hcl : cacheLookup cfg (sleepMinInterval cfg (jm 1) s) url = none)
    (hn : s.net = NetEvent.resp 429 ra rb :: rest)
    (hmax : 1 ≤ cfg.maxAttempts) :
    (policyGet .skip cfg jm jb j4 url s).outcome = .rateLimited ∧
    (policyGet .skip cfg jm jb j4 url s).attemptsUsed = 1 := by
  obtain ⟨m, hm⟩ : ∃ m, cfg.maxAttempts = m + 1 := ⟨cfg.maxAttempts - 1, by omega⟩
  unfold policyGet
  rw [hm]
  simp only [policyGetAux]
  simp [sessionGet, hcl, sleepMinInterval_net, hn]

/-- A run of k 429 responses followed by a 200 under the `backoff`
policy: every 429 sleeps the capped Retry-After amount plus jitter and
consumes one attempt; the 200 succeeds on attempt `attempt + k`. -/
lemma backoff_429_run (cfg : FetchCfg) (jm jb j4 : ℕ → ℚ) (url : String)
    (ra : Option String) (b : String) (hb : b ≠ "") :
    ∀ (k attempt rem : ℕ) (s : FetchState), s.cache = [] →
      s.net = List.replicate k (NetEvent.resp 429 ra "") ++ [NetEvent.resp 200 none b] →
      attempt + k ≤ cfg.maxAttempts → k < rem →
      (policyGetAux .backoff cfg jm jb j4 url rem attempt s).outcome = .ok b ∧
      (policyGetAux .backoff cfg jm jb j4 url rem attempt s).attemptsUsed = attempt + k ∧
      (policyGetAux .backoff cfg jm jb j4 url rem attempt s).state.rlSleeps =
        s.rlSleeps ++ (List.range k).map
          (fun i => retryAfterSeconds cfg ra + j4 (attempt + i)) := by
  intro k
  induction k with
  | zero =>
    intro a rem s hc hn ha hr
    obtain ⟨m, rfl⟩ : ∃ m, rem = m + 1 := ⟨rem - 1, by omega⟩
    have hcl : cacheLookup cfg (sleepMinInterval cfg (jm a) s) url = none := by
      unfold cacheLookup
      rw [sleepMinInterval_cache, hc]
      rfl
    simp only [List.replicate, List.nil_append] at hn
    simp only [policyGetAux]
    simp [sessionGet, hcl, sleepMinInterval_net, hn, hb, sleepMinInterval_rlSleeps]
  | succ k ih =>
    intro a rem s hc hn ha hr
    obtain ⟨m, rfl⟩ : ∃ m, rem = m + 1 := ⟨rem - 1, by omega⟩
    have hcl : cacheLookup cfg (sleepMinInterval cfg (jm a) s) url = none := by
      unfold cacheLookup
      rw [sleepMinInterval_cache, hc]
      rfl
    have hnot : ¬ cfg.maxAttempts ≤ a := by omega
    rw [List.replicate_succ, List.cons_append] at hn
    have hstep : policyGetAux .backoff cfg jm jb j4 url (m + 1) a s =
        policyGetAux .backoff cfg jm jb j4 url m (a + 1)
          (sleep429 (retryAfterSeconds cfg ra + j4 a)
            { sleepMinInterval cfg (jm a) s with
              net := List.replicate k (NetEvent.resp 429 ra "") ++ [NetEvent.resp 200 none b] }) := by
      simp only [policyGetAux]
      simp [sessionGet, hcl, sleepMinInterval_net, hn, hnot]
    rw [hstep]
    obtain ⟨h1, h2, h3⟩ := ih (a + 1) m
      (sleep429 (retryAfterSeconds cfg ra + j4 a)
        { sleepMinInterval cfg (jm a) s with
          net := List.replicate k (NetEvent.resp 429 ra "") ++ [NetEvent.resp 200 none b] })
      (by simp [sleep429, sleepMinInterval_cache, hc])
      (by simp [sleep429])
      (by omega) (by omega)
    refine ⟨h1, ?_, ?_⟩
    · rw [h2]; omega
    · rw [h3]
      have hrl : (sleep429 (retryAfterSeconds cfg ra + j4 a)
          { sleepMinInterval cfg (jm a) s with
            net := List.replicate k (NetEvent.resp 429 ra "") ++ [NetEvent.resp 200 none b] }).rlSleeps =
          s.rlSleeps ++ [retryAfterSeconds cfg ra + j4 a] := by
        simp [sleep429, sleepMinInterval_rlSleeps]
      rw [hrl]
      have hrange : (List.range (k + 1)).map (fun i => retryAfterSeconds cfg ra + j4 (a + i)) =
          (retryAfterSeconds cfg ra + j4 a) ::
            (List.range k).map (fun i => retryAfterSeconds cfg ra + j4 (a + 1 + i)) := by
        rw [List.range_succ_eq_map, List.map_cons, List.map_map]
        congr 1
        apply List.map_congr_left
        intro i hi2
        simp only [Function.comp_apply, Nat.succ_eq_add_one]
        have hsw : a + (i + 1) = a + 1 + i := by omega
        rw [hsw]
      rw [hrange]
      simp [List.append_assoc]

/-- A long enough unbroken run of 429 responses under the `backoff`
policy exhausts the attempt budget. -/
lemma backoff_429_exhaust (cfg : FetchCfg) (jm jb j4 : ℕ → ℚ) (url : String)
    (ra : Option String) :
    ∀ (k attempt : ℕ) (s : FetchState) (rest : List NetEvent), s.cache = [] →
      s.net = List.replicate (k + 1) (NetEvent.resp 429 ra "") ++ rest →
      attempt + k = cfg.maxAttempts →
      (policyGetAux .backoff cfg jm jb j4 url (k + 1) attempt s).outcome = .err429GaveUp ∧
      (policyGetAux .backoff cfg jm jb j4 url (k + 1) attempt s).attemptsUsed = cfg.maxAttempts := by
  intro k
  induction k with
  | zero =>
    intro a s rest hc hn ha
    have hcl : cacheLookup cfg (sleepMinInterval cfg (jm a) s) url = none := by
      unfold cacheLookup
      rw [sleepMinInterval_cache, hc]
      rfl
    have hle : cfg.maxAttempts ≤ a := by omega
    rw [List.replicate_succ, List.replicate, List.cons_append, List.nil_append] at hn
    simp only [policyGetAux]
    refine ⟨?_, ?_⟩ <;> (simp [sessionGet, hcl, sleepMinInterval_net, hn, hle]; try omega)
  | succ k ih =>
    intro a s rest hc hn ha
    have hcl : cacheLookup cfg (sleepMinInterval cfg (jm a) s) url = none := by
      unfold cacheLookup
      rw [sleepMinInterval_cache, hc]
      rfl
    have hnot : ¬ cfg.maxAttempts ≤ a := by omega
    rw [List.replicate_succ, List.cons_append] at hn
    have hstep : policyGetAux .backoff cfg jm jb j4 url (k + 1 + 1) a s =
        policyGetAux .backoff cfg jm jb j4 url (k + 1) (a + 1)
          (sleep429 (retryAfterSeconds cfg ra + j4 a)
            { sleepMinInterval cfg (jm a) s with
              net := List.replicate (k + 1) (NetEvent.resp 429 ra "") ++ rest }) := by
      simp only [policyGetAux]
      simp [sessionGet, hcl, sleepMinInterval_net, hn, hnot]
    rw [hstep]
    exact ih (a + 1)
      (sleep429 (retryAfterSeconds cfg ra + j4 a)
        { sleepMinInterval cfg (jm a) s with
          net := List.replicate (k + 1) (NetEvent.resp 429 ra "") ++ rest })
      rest
      (by simp [sleep429, sleepMinInterval_cache, hc])
      (by simp [sleep429])
      (by omega)

/-- The defaults of `src/fetch.py`: 2 s minimum interval, 5 attempts,
45 s Retry-After cap, 24 h cache. -/
def c1Cfg : FetchCfg :=
  { minInterval := 2, maxAttempts := 5, retryAfterCap := 45, cacheSecs := 86400 }

/-- A constant jitter stream of 0.1 s. -/
def c1Jit : ℕ → ℚ := fun _ => 1/10

/-- A state holding a fresh cache entry for "u", with the last request
having just returned (no interval has elapsed). -/
def c1State : FetchState :=
  { clock := 100, lastRequestTs := 100,
    cache := [("u", { body := "BODY", storedAt := 50 })],
    net := [], rlSleeps := [] }

/-- C1 fails as stated: for a URL with a valid, unexpired cache entry,
`get` still invokes `_sleep_min_interval` before `SESSION.get` (the
cache is transparent inside the session), so the minimum-interval wait
occurs (the clock advances by 2 s plus jitter) and the pacing baseline
`_last_request_ts` changes — even though the cached body is returned. -/
theorem C1_counterexample :
    cacheLookup c1Cfg c1State "u" = some "BODY" ∧
    (pfrGet c1Cfg c1Jit c1Jit c1Jit "u" c1State).outcome = .ok "BODY" ∧
    (pfrGet c1Cfg c1Jit c1Jit c1Jit "u" c1State).state.lastRequestTs ≠ c1State.lastRequestTs ∧
    (pfrGet c1Cfg c1Jit c1Jit c1Jit "u" c1State).state.clock = c1State.clock + 21/10 := by
  refine ⟨?_, ?_, ?_, ?_⟩ <;>
    norm_num [pfrGet, getAux, sessionGet, cacheLookup, sleepMinInterval, c1Cfg, c1State, c1Jit] <;>
    simp +decide <;> norm_num

/-- C1 (amended): on a call whose URL has a valid, unexpired, non-empty
cache entry, `get` returns the stored body on the first attempt, but only
after running the throttle: the final state is exactly the post-throttle
state (pacing baseline updated to the post-wait clock), and in particular
no network event is consumed and the cache is unchanged. -/
theorem C1_cache_hit_behavior (cfg : FetchCfg) (jmin jboff j429 : ℕ → ℚ) (url : String)
    (s : FetchState) (e : CacheEntry)
    (hmax : 1 ≤ cfg.maxAttempts)
    (hfind : s.cache.find? (fun p => p.fst == url) = some (url, e))
    (hfresh : (sleepMinInterval cfg (jmin 1) s).clock - e.storedAt < cfg.cacheSecs)
    (hbody : e.body ≠ "") :
    pfrGet cfg jmin jboff j429 url s =
      { outcome := .ok e.body, state := sleepMinInterval cfg (jmin 1) s, attemptsUsed := 1 } := by
  obtain ⟨m, hm⟩ : ∃ m, cfg.maxAttempts = m + 1 := ⟨cfg.maxAttempts - 1, by omega⟩
  have hcl : cacheLookup cfg (sleepMinInterval cfg (jmin 1) s) url = some e.body := by
    unfold cacheLookup
    rw [sleepMinInterval_cache, hfind]
    simp [hfresh]
  unfold pfrGet
  rw [hm]
  simp only [getAux]
  simp [sessionGet, hcl, hbody]

/-- Witness for C1 (amended) at the concrete cached state. -/
theorem C1_cache_hit_behavior_witness :
    pfrGet c1Cfg c1Jit c1Jit c1Jit "u" c1State =
      { outcome := .ok "BODY", state := sleepMinInterval c1Cfg (c1Jit 1) c1State,
        attemptsUsed := 1 } :=
  C1_cache_hit_behavior c1Cfg c1Jit c1Jit c1Jit "u" c1State { body := "BODY", storedAt := 50 }
    (by decide) (by rfl)
    (by norm_num [sleepMinInterval, c1Cfg, c1State, c1Jit]) (by decide)

/-- C2: on an HTTP 429, policy `skip` surfaces the distinct RateLimited
failure immediately, consuming exactly one attempt; policy `backoff`
sleeps `min(Retry-After or default 10, cap)` plus jitter per 429, retries
with each retry counted against the attempt budget, succeeds when a 200
arrives within the budget, and exhausts the budget after `max_attempts`
consecutive 429s.  Under `backoff` the policy-aware model coincides with
`get` from `src/fetch.py`; the `skip` branch is spec-modelled (see
`policyGetAux`). -/
theorem C2_rate_limit_policies :
    (retryAfterSeconds c1Cfg (some "120") = 45 ∧
     retryAfterSeconds c1Cfg (some "7") = 7 ∧
     retryAfterSeconds c1Cfg none = 10) ∧
    (∀ (cfg : FetchCfg) (jm jb j4 : ℕ → ℚ) (url : String) (s : FetchState)
        (ra : Option String) (rb : String) (rest : List NetEvent),
      cacheLookup cfg (sleepMinInterval cfg (jm 1) s) url = none →
      s.net = NetEvent.resp 429 ra rb :: rest → 1 ≤ cfg.maxAttempts →
      (policyGet .skip cfg jm jb j4 url s).outcome = .rateLimited ∧
      (policyGet .skip cfg jm jb j4 url s).attemptsUsed = 1) ∧
    (∀ (cfg : FetchCfg) (jm jb j4 : ℕ → ℚ) (url : String) (s : FetchState)
        (ra : Option String) (b : String) (k : ℕ),
      b ≠ "" → s.cache = [] →
      s.net = List.replicate k (NetEvent.resp 429 ra "") ++ [NetEvent.resp 200 none b] →
      k + 1 ≤ cfg.maxAttempts →
      (policyGet .backoff cfg jm jb j4 url s).outcome = .ok b ∧
      (policyGet .backoff cfg jm jb j4 url s).attemptsUsed = k + 1 ∧
      (policyGet .backoff cfg jm jb j4 url s).state.rlSleeps =
        s.rlSleeps ++ (List.range k).map (fun i => retryAfterSeconds cfg ra + j4 (1 + i)) ∧
      policyGet .backoff cfg jm jb j4 url s = pfrGet cfg jm jb j4 url s) ∧
    (∀ (cfg : FetchCfg) (jm jb j4 : ℕ → ℚ) (url : String) (s : FetchState)
        (ra : Option String) (k : ℕ),
      s.cache = [] → s.net = List.replicate (k + 1) (NetEvent.resp 429 ra "") →
      1 + k = cfg.maxAttempts →
      (policyGet .backoff cfg jm jb j4 url s).outcome = .err429GaveUp ∧
      (policyGet .backoff cfg jm jb j4 url s).attemptsUsed = cfg.maxAttempts ∧
      policyGet .backoff cfg jm jb j4 url s = pfrGet cfg jm jb j4 url s) := by
  refine ⟨⟨by decide, by decide, by decide⟩, ?_, ?_, ?_⟩
  · intro cfg jm jb j4 url s ra rb rest hcl hn hmax
    exact skip_429_immediate cfg jm jb j4 url s ra rb rest hcl hn hmax
  · intro cfg jm jb j4 url s ra b k hb hc hn hk
    have hagree := policyGetAux_backoff_agrees cfg jm jb j4 url cfg.maxAttempts 1 s
    have h := backoff_429_run cfg jm jb j4 url ra b hb k 1 cfg.maxAttempts s hc hn
      (by omega) (by omega)
    refine ⟨h.1, ?_, h.2.2, ?_⟩
    · simp only [policyGet]
      rw [h.2.1]
      omega
    · simp only [policyGet, pfrGet]
      exact hagree
  · intro cfg jm jb j4 url s ra k hc hn hmx
    have hfm : cfg.maxAttempts = k + 1 := by omega
    have hagree := policyGetAux_backoff_agrees cfg jm jb j4 url cfg.maxAttempts 1 s
    have h := backoff_429_exhaust cfg jm jb j4 url ra k 1 s [] hc (by simpa using hn) (by omega)
    have hpg : policyGet .backoff cfg jm jb j4 url s =
        policyGetAux .backoff cfg jm jb j4 url (k + 1) 1 s := by
      simp only [policyGet, hfm]
    refine ⟨?_, ?_, ?_⟩
    · rw [hpg]; exact h.1
    · rw [hpg]; exact h.2
    · simp only [policyGet, pfrGet]
      exact hagree

def c2SkipState : FetchState :=
  { clock := 0, lastRequestTs := -10, cache := [],
    net := [NetEvent.resp 429 (some "7") ""], rlSleeps := [] }

def c2BackState : FetchState :=
  { clock := 0, lastRequestTs := -10, cache := [],
    net := [NetEvent.resp 429 (some "7") "", NetEvent.resp 200 none "OK"], rlSleeps := [] }

def c2ExhState : FetchState :=
  { clock := 0, lastRequestTs := -10, cache := [],
    net := List.replicate 5 (NetEvent.resp 429 (some "7") ""), rlSleeps := [] }

/-- Witness for C2: a 429 under `skip`; one 429 then a 200 under
`backoff`; five consecutive 429s exhausting the 5-attempt budget. -/
theorem C2_rate_limit_policies_witness :
    (policyGet .skip c1Cfg c1Jit c1Jit c1Jit "u" c2SkipState).outcome = .rateLimited ∧
    (policyGet .skip c1Cfg c1Jit c1Jit c1Jit "u" c2SkipState).attemptsUsed = 1 ∧
    (policyGet .backoff c1Cfg c1Jit c1Jit c1Jit "u" c2BackState).outcome = .ok "OK" ∧
    (policyGet .backoff c1Cfg c1Jit c1Jit c1Jit "u" c2BackState).attemptsUsed = 2 ∧
    (policyGet .backoff c1Cfg c1Jit c1Jit c1Jit "u" c2BackState).state.rlSleeps =
      c2BackState.rlSleeps ++
        (List.range 1).map (fun i => retryAfterSeconds c1Cfg (some "7") + c1Jit (1 + i)) ∧
    (policyGet .backoff c1Cfg c1Jit c1Jit c1Jit "u" c2ExhState).outcome = .err429GaveUp := by
  have hskip := C2_rate_limit_policies.2.1 c1Cfg c1Jit c1Jit c1Jit "u" c2SkipState (some "7") "" []
    (by simp [cacheLookup, sleepMinInterval_cache, c2SkipState]) (by rfl) (by decide)
  have hback := C2_rate_limit_policies.2.2.1 c1Cfg c1Jit c1Jit c1Jit "u" c2BackState (some "7") "OK" 1
    (by decide) (by rfl) (by rfl) (by decide)
  have hexh := C2_rate_limit_policies.2.2.2 c1Cfg c1Jit c1Jit c1Jit "u" c2ExhState (some "7") 4
    (by rfl) (by rfl) (by decide)
  exact ⟨hskip.1, hskip.2, hback.1, hback.2.1, hback.2.2.1, hexh.1⟩

/-! ### `src/boxtotals.py` / `src/linescore.py`: the batch builders (claim C9)

The per-identifier fetch-and-parse pipeline is abstracted as an oracle:
it raises `FetchError`, raises some other exception, or returns a frame
that has data or not.  `build_totals_for_index` wraps the call in
`except Exception` (everything is caught); `build_linescores_for_index`
catches only `FetchError`. -/

inductive FetchRes
  | fetchErr
  | otherErr
  | ok (hasData : Bool)
deriving DecidableEq

structure BatchResult where
  processed : ℕ
  skipped : List String
  failures : List String
deriving DecidableEq

deriving instance DecidableEq for Except

/-- Python `if limit and processed >= limit` (both `None` and `0` are
falsy). -/
def limitHit (limit : Option ℕ) (processed : ℕ) : Bool :=
  match limit with
  | none => false
  | some l => (l != 0) && decide (l ≤ processed)

/-- The loop of `build_totals_for_index` from `src/boxtotals.py`: skip
identifiers already on disk, catch every exception (log, record the
failure, continue), count frames with data, and honor the limit check
after each non-raising iteration. -/
def buildTotalsAux (oracle : String → FetchRes) (existing : List String) (limit : Option ℕ) :
    List String → ℕ → List String → List String → BatchResult
  | [], p, sk, fl => { processed := p, skipped := sk, failures := fl }
  | gid :: rest, p, sk, fl =>
    if existing.contains gid then
      buildTotalsAux oracle existing limit rest p (sk ++ [gid]) fl
    else
      match oracle gid with
      | .fetchErr => buildTotalsAux oracle existing limit rest p sk (fl ++ [gid])
      | .otherErr => buildTotalsAux oracle existing limit rest p sk (fl ++ [gid])
      | .ok hasData =>
        let p1 := if hasData then p + 1 else p
        if limitHit limit p1 then { processed := p1, skipped := sk, failures := fl }
        else buildTotalsAux oracle existing limit rest p1 sk fl

/-- `build_totals_for_index` from `src/boxtotals.py` (it returns
`(processed, skipped)` and prints the failure count; the model returns
all three). -/
def buildTotalsForIndex (oracle : String → FetchRes) (existing : List String)
    (limit : Option ℕ) (ids : List String) : BatchResult :=
  buildTotalsAux oracle existing limit ids 0 [] []

/-- The loop of `build_linescores_for_index` from `src/linescore.py`:
identifiers are lowercased, only `FetchError` is caught (any other
exception propagates and aborts, hence the `Except`), an empty or
missing frame is also recorded as a failure, and the limit check runs
after every non-skipped iteration. -/
def buildLinescoresAux (oracle : String → FetchRes) (existing : List String) (limit : Option ℕ) :
    List String → ℕ → List String → List String → Except Unit BatchResult
  | [], p, sk, fl => .ok { processed := p, skipped := sk, failures := fl }
  | gid0 :: rest, p, sk, fl =>
    let gid := pyLower gid0
    if existing.contains gid then
      buildLinescoresAux oracle existing limit rest p (sk ++ [gid]) fl
    else
      match oracle gid with
      | .otherErr => .error ()
      | .fetchErr =>
        if limitHit limit p then .ok { processed := p, skipped := sk, failures := fl ++ [gid] }
        else buildLinescoresAux oracle existing limit rest p sk (fl ++ [gid])
      | .ok hasData =>
        if hasData then
          if limitHit limit (p + 1) then .ok { processed := p + 1, skipped := sk, failures := fl }
          else buildLinescoresAux oracle existing limit rest (p + 1) sk fl
        else
          if limitHit limit p then .ok { processed := p, skipped := sk, failures := fl ++ [gid] }
          else buildLinescoresAux oracle existing limit rest p sk (fl ++ [gid])

/-- `build_linescores_for_index` from `src/linescore.py`. -/
def buildLinescoresForIndex (oracle : String → FetchRes) (existing : List String)
    (limit : Option ℕ) (ids : List String) : Except Unit BatchResult :=
  buildLinescoresAux oracle existing limit ids 0 [] []

lemma buildTotalsAux_closed (oracle : String → FetchRes) (existing : List String) :
    ∀ (ids : List String) (p : ℕ) (sk fl : List String),
      buildTotalsAux oracle existing none ids p sk fl =
        { processed := p + (ids.filter (fun g =>
            !existing.contains g && (oracle g == FetchRes.ok true))).length,
          skipped := sk ++ ids.filter (fun g => existing.contains g),
          failures := fl ++ ids.filter (fun g =>
            !existing.contains g &&
              (oracle g == FetchRes.fetchErr || oracle g == FetchRes.otherErr)) } := by
  intro ids
  induction ids with
  | nil => intro p sk fl; simp [buildTotalsAux]
  | cons gid rest ih =>
    intro p sk fl
    by_cases hg : gid ∈ existing
    · simp [buildTotalsAux, hg, ih, List.filter_cons, List.append_assoc]
    · cases ho : oracle gid with
      | fetchErr => simp [buildTotalsAux, hg, ho, ih, List.filter_cons, List.append_assoc]
      | otherErr => simp [buildTotalsAux, hg, ho, ih, List.filter_cons, List.append_assoc]
      | ok hasData =>
        cases hasData <;>
          simp [buildTotalsAux, hg, ho, ih, limitHit, List.filter_cons, List.append_assoc] <;>
          omega

lemma buildLinescoresAux_closed (oracle : String → FetchRes) (existing : List String)
    (hno : ∀ g, oracle g ≠ FetchRes.otherErr) :
    ∀ (ids : List String) (p : ℕ) (sk fl : List String),
      buildLinescoresAux oracle existing none ids p sk fl =
        .ok { processed := p + ((ids.map pyLower).filter (fun g =>
                !existing.contains g && (oracle g == FetchRes.ok true))).length,
              skipped := sk ++ (ids.map pyLower).filter (fun g => existing.contains g),
              failures := fl ++ (ids.map pyLower).filter (fun g =>
                !existing.contains g &&
                  (oracle g == FetchRes.fetchErr || oracle g == FetchRes.ok false)) } := by
  intro ids
  induction ids with
  | nil => intro p sk fl; simp [buildLinescoresAux]
  | cons gid0 rest ih =>
    intro p sk fl
    by_cases hg : pyLower gid0 ∈ existing
    · simp [buildLinescoresAux, hg, ih, List.filter_cons, List.append_assoc]
    · cases ho : oracle (pyLower gid0) with
      | fetchErr =>
        simp [buildLinescoresAux, hg, ho, ih, limitHit, List.filter_cons, List.append_assoc]
      | otherErr => exact absurd ho (hno _)
      | ok hasData =>
        cases hasData <;>
          simp [buildLinescoresAux, hg, ho, ih, limitHit, List.filter_cons,
            List.append_assoc] <;>
          omega

/-- C9: with no limit set, a `FetchError` for one identifier never
aborts the batch: both builders visit every identifier, recording each
as skipped (already on disk), processed (fetched with data), or failed
(`FetchError`, any exception in the totals builder, or an empty result
in the linescore builder), and return the aggregate counts.  The
linescore builder catches only `FetchError`, so its closed form is
stated for oracles that raise nothing else. -/
theorem C9_batch_failure_isolation (oracle : String → FetchRes) (existing : List String)
    (ids : List String) :
    (buildTotalsForIndex oracle existing none ids =
      { processed := (ids.filter (fun g =>
          !existing.contains g && (oracle g == FetchRes.ok true))).length,
        skipped := ids.filter (fun g => existing.contains g),
        failures := ids.filter (fun g =>
          !existing.contains g &&
            (oracle g == FetchRes.fetchErr || oracle g == FetchRes.otherErr)) }) ∧
    ((∀ g, oracle g ≠ FetchRes.otherErr) →
      buildLinescoresForIndex oracle existing none ids =
        .ok { processed := ((ids.map pyLower).filter (fun g =>
                !existing.contains g && (oracle g == FetchRes.ok true))).length,
              skipped := (ids.map pyLower).filter (fun g => existing.contains g),
              failures := (ids.map pyLower).filter (fun g =>
                !existing.contains g &&
                  (oracle g == FetchRes.fetchErr || oracle g == FetchRes.ok false)) }) := by
  constructor
  · simpa using buildTotalsAux_closed oracle existing ids 0 [] []
  · intro hno
    simpa using buildLinescoresAux_closed oracle existing hno ids 0 [] []

/-- An oracle that raises `FetchError` for one identifier and returns an
empty frame for another. -/
def c9Oracle : String → FetchRes := fun g =>
  if g == "bad1" then FetchRes.fetchErr
  else if g == "empty1" then FetchRes.ok false
  else FetchRes.ok true

def c9Ids : List String := ["done1", "bad1", "g1", "empty1", "g2"]

def c9Existing : List String := ["done1"]

/-- Witness for C9: the failing identifier "bad1" does not stop "g1",
"empty1" or "g2" from being visited. -/
theorem C9_batch_failure_isolation_witness :
    buildTotalsForIndex c9Oracle c9Existing none c9Ids =
      { processed := 2, skipped := ["done1"], failures := ["bad1"] } ∧
    buildLinescoresForIndex c9Oracle c9Existing none c9Ids =
      .ok { processed := 2, skipped := ["done1"], failures := ["bad1", "empty1"] } := by
  have h := C9_batch_failure_isolation c9Oracle c9Existing c9Ids
  have hno : ∀ g, c9Oracle g ≠ FetchRes.otherErr := by
    intro g
    simp only [c9Oracle]
    split
    · simp
    · split <;> simp
  exact ⟨h.1.trans (by decide), (h.2 hno).trans (by decide)⟩

/-! ### `src/aggregate_totals.py`: `pivot_totals_wide` (claim C7)

A pandas frame keyed by `['game_id','away_team','home_team']` is a list
of rows `(key, columns)` where the columns are an association list of
column name to value.  `pivot_table(..., aggfunc="first")` groups by
(key, stat) and keeps the first non-null value per column (pandas
`GroupBy.first` skips nulls); a column or key that is entirely absent is
observationally identical to one holding only nulls under lookup, so the
`dropna` column pruning needs no separate modelling. -/

abbrev GKey := String × String × String

def keyOf (r : TidyRow) : GKey := (r.game_id, r.away_team, r.home_team)

/-- `drop_duplicates()` keeping first occurrences: the accumulator holds
the values already seen. -/
def dedupAux [DecidableEq α] (seen : List α) : List α → List α
  | [] => []
  | a :: as => if a ∈ seen then dedupAux seen as else a :: dedupAux (a :: seen) as

def dedupFirst [DecidableEq α] (l : List α) : List α := dedupAux [] l

/-- pandas `GroupBy.first`: the first non-null value. -/
def firstNonNull (l : List (Option Int)) : Option Int := (l.filterMap id).head?

/-- One `pivot_table` cell: the first non-null value of the selected
column among the group's rows for `(k, s)`, in frame order. -/
def pivotCell {α} (sub : List (GKey × String × α)) (k : GKey) (s : String)
    (f : α → Option Int) : Option Int :=
  firstNonNull ((sub.filter (fun r => r.1 == k && r.2.1 == s)).map (fun r => f r.2.2))

def keysOf {α} (sub : List (GKey × String × α)) : List GKey :=
  dedupFirst (sub.map (fun r => r.1))

def statsOf {α} (sub : List (GKey × String × α)) : List String :=
  dedupFirst (sub.map (fun r => r.2.1))

def natCell (o : Option ℕ) : Option Int := o.map (fun n => (n : Int))

/-- The integer-like sub-frame of `pivot_totals_wide`: select, project,
`drop_duplicates()`. -/
def intSubRows (tidy : List TidyRow) : List (GKey × String × (Option Int × Option Int)) :=
  dedupFirst ((tidy.filter (fun r => INT_LIKE.contains r.stat_norm)).map
    (fun r => (keyOf r, r.stat_norm, (r.away_val_int, r.home_val_int))))

/-- The made/att values of one conversion row, both sides. -/
structure PctVals where
  am : Option Int
  aa : Option Int
  hm : Option Int
  ha : Option Int
deriving DecidableEq

/-- The conversion sub-frame (`conv`), carrying made/att for both sides;
`pd.to_numeric` on the already-typed fields is the cast to `Int`. -/
def pctSubRows (tidy : List TidyRow) : List (GKey × String × PctVals) :=
  dedupFirst ((tidy.filter (fun r => PCT_LIKE.contains r.stat_norm)).map
    (fun r => (keyOf r, r.stat_norm,
      { am := natCell r.away_made, aa := natCell r.away_att,
        hm := natCell r.home_made, ha := natCell r.home_att })))

/-- The time-like sub-frame (`tpos`). -/
def timeSubRows (tidy : List TidyRow) : List (GKey × String × (Option Int × Option Int)) :=
  dedupFirst ((tidy.filter (fun r => TIME_LIKE.contains r.stat_norm)).map
    (fun r => (keyOf r, r.stat_norm, (natCell r.away_seconds, natCell r.home_seconds))))

/-- A pivoted piece before materialisation: its index keys and its
columns, each column a name and a per-key cell function. -/
abbrev PieceDesc := List GKey × List (String × (GKey → Option Int))

/-- `ints_w`: one flattened column per side × observed stat. -/
def intPieceDesc (tidy : List TidyRow) : PieceDesc :=
  let sub := intSubRows tidy
  (keysOf sub,
   (statsOf sub).map (fun s => ("away_" ++ s, fun k => pivotCell sub k s Prod.fst)) ++
   (statsOf sub).map (fun s => ("home_" ++ s, fun k => pivotCell sub k s Prod.snd)))

/-- `conv_w`: the outer merge of the away and home conversion pivots
(their key sets coincide, both being the keys of `conv`). -/
def pctPieceDesc (tidy : List TidyRow) : PieceDesc :=
  let sub := pctSubRows tidy
  (keysOf sub,
   (statsOf sub).map (fun s =>
     ("away_" ++ s ++ "_made", fun k => pivotCell sub k s PctVals.am)) ++
   (statsOf sub).map (fun s =>
     ("away_" ++ s ++ "_att", fun k => pivotCell sub k s PctVals.aa)) ++
   (statsOf sub).map (fun s =>
     ("home_" ++ s ++ "_made", fun k => pivotCell sub k s PctVals.hm)) ++
   (statsOf sub).map (fun s =>
     ("home_" ++ s ++ "_att", fun k => pivotCell sub k s PctVals.ha)))

/-- `tpos_w`. -/
def timePieceDesc (tidy : List TidyRow) : PieceDesc :=
  let sub := timeSubRows tidy
  (keysOf sub,
   (statsOf sub).map (fun s =>
     ("away_" ++ s ++ "_seconds", fun k => pivotCell sub k s Prod.fst)) ++
   (statsOf sub).map (fun s =>
     ("home_" ++ s ++ "_seconds", fun k => pivotCell sub k s Prod.snd)))

/-- The `pieces` list: each piece is built only if its sub-frame is
non-empty. -/
def piecesOf (tidy : List TidyRow) : List PieceDesc :=
  (if (intSubRows tidy).isEmpty then [] else [intPieceDesc tidy]) ++
  (if (pctSubRows tidy).isEmpty then [] else [pctPieceDesc tidy]) ++
  (if (timeSubRows tidy).isEmpty then [] else [timePieceDesc tidy])

/-- Materialise a piece as a keyed frame (`reset_index()`). -/
def mkPiece (pd : PieceDesc) : List (GKey × List (String × Option Int)) :=
  pd.1.map (fun k => (k, pd.2.map (fun c => (c.1, c.2 k))))

/-- `pd.merge(..., how="left")` on the key columns: each left row is
kept, widened by each matching right row, or kept as-is when the right
frame has no match (the missing columns read as null under lookup). -/
def leftJoin (L R : List (GKey × List (String × Option Int))) :
    List (GKey × List (String × Option Int)) :=
  L.flatMap (fun l =>
    match R.filter (fun r => r.1 == l.1) with
    | [] => [l]
    | ms => ms.map (fun m => (l.1, l.2 ++ m.2)))

def applyPieces (pds : List PieceDesc)
    (W : List (GKey × List (String × Option Int))) :
    List (GKey × List (String × Option Int)) :=
  pds.foldl (fun acc pd => leftJoin acc (mkPiece pd)) W

/-- The distinct entity keys of the tidy frame (`base`). -/
def baseKeys (tidy : List TidyRow) : List GKey := dedupFirst (tidy.map keyOf)

/-- `pivot_totals_wide` from `src/aggregate_totals.py`: empty input or no
pieces give an empty frame; otherwise every piece is left-merged onto the
distinct-key base. -/
def pivotTotalsWide (tidy : List TidyRow) : List (GKey × List (String × Option Int)) :=
  if tidy.isEmpty then []
  else if (piecesOf tidy).isEmpty then []
  else applyPieces (piecesOf tidy) ((baseKeys tidy).map (fun k => (k, [])))

/-- Reading one column of one row (missing column reads as null). -/
def colLookup (cv : List (String × Option Int)) (c : String) : Option Int :=
  match cv.find? (fun p => p.1 == c) with
  | some p => p.2
  | none => none

/-- Reading one cell of the wide frame (missing row reads as null). -/
def wideCell (w : List (GKey × List (String × Option Int))) (k : GKey) (c : String) : Option Int :=
  match w.find? (fun r => r.1 == k) with
  | some r => colLookup r.2 c
  | none => none

/-- The columns a key accumulates across the joined pieces, in join
order. -/
def joinCols : List PieceDesc → GKey → List (String × Option Int)
  | [], _ => []
  | pd :: rest, k =>
    (if k ∈ pd.1 then pd.2.map (fun c => (c.1, c.2 k)) else []) ++ joinCols rest k

end PFR

namespace PFR

def c7DupRow1 : TotalsRow :=
  { game_id := "g1", away_team := "A", home_team := "H",
    stat := "Total Yards", away_value := "x", home_value := "3" }

def c7DupRow2 : TotalsRow :=
  { game_id := "g1", away_team := "A", home_team := "H",
    stat := "Total Yards", away_value := "7", home_value := "4" }

/-- Counterexample to C7 as stated. First, a non-empty tidy input whose
single stat is a slug fallback lands in no shape group, so all three
pivot pieces are empty and `pivot_totals_wide` returns an entirely empty
frame: the entity is dropped, not kept with nulls. Second, with duplicate
(entity, key) rows in the integer group whose first occurrence has a null
away value, the wide away cell holds the SECOND row's value 7 (pandas
aggfunc "first" keeps the first non-null per column, not the first
occurrence), while the home cell keeps 3 from the first row. -/
theorem C7_counterexample :
    (tidyTotals [c4SlugRow] ≠ [] ∧ pivotTotalsWide (tidyTotals [c4SlugRow]) = []) ∧
    ((tidyRow c7DupRow1).away_val_int = none ∧ (tidyRow c7DupRow2).away_val_int = some 7 ∧
     wideCell (pivotTotalsWide (tidyTotals [c7DupRow1, c7DupRow2])) ("g1", "A", "H")
       "away_total_yards" = some 7 ∧
     wideCell (pivotTotalsWide (tidyTotals [c7DupRow1, c7DupRow2])) ("g1", "A", "H")
       "home_total_yards" = some 3) := by decide

end PFR

namespace PFR

lemma dedupAux_mem [DecidableEq α] : ∀ (l seen : List α) (a : α),
    a ∈ dedupAux seen l ↔ a ∈ l ∧ a ∉ seen := by
  intro l
  induction l with
  | nil => intro seen a; simp [dedupAux]
  | cons b bs ih =>
    intro seen a
    by_cases hb : b ∈ seen <;> by_cases hab : a = b <;>
      simp [dedupAux, hb, hab, ih]

lemma dedupAux_nodup [DecidableEq α] : ∀ (l seen : List α), (dedupAux seen l).Nodup := by
  intro l
  induction l with
  | nil => intro seen; simp [dedupAux]
  | cons b bs ih =>
    intro seen
    by_cases hb : b ∈ seen
    · simp [dedupAux, hb, ih]
    · simp only [dedupAux, hb, if_neg]
      refine List.Nodup.cons ?_ (ih (b :: seen))
      intro hmem
      have := (dedupAux_mem bs (b :: seen) b).mp hmem
      simp at this
    
lemma dedupFirst_mem [DecidableEq α] (l : List α) (a : α) : a ∈ dedupFirst l ↔ a ∈ l := by
  simp [dedupFirst, dedupAux_mem]

lemma dedupFirst_nodup [DecidableEq α] (l : List α) : (dedupFirst l).Nodup :=
  dedupAux_nodup l []

end PFR

namespace PFR

lemma find?_map_keys {β : Type} (ks : List GKey) (f : GKey → β) (k : GKey) :
    ∀ (hk : k ∈ ks),
      (ks.map (fun k2 => (k2, f k2))).find? (fun r => r.1 == k) = some (k, f k) := by
  induction ks with
  | nil => intro hk; cases hk
  | cons k0 ks ih =>
    intro hk
    by_cases h0 : k0 = k
    · subst h0
      simp [List.find?]
    · have hk2 : k ∈ ks := by
        cases hk with
        | head => exact absurd rfl h0
        | tail _ h => exact h
      have hbeq : (k0 == k) = false := beq_eq_false_iff_ne.mpr h0
      simp [List.find?, hbeq, ih hk2]

lemma find?_map_keys_none {β : Type} (ks : List GKey) (f : GKey → β) (k : GKey)
    (hk : k ∉ ks) :
    (ks.map (fun k2 => (k2, f k2))).find? (fun r => r.1 == k) = none := by
  induction ks with
  | nil => rfl
  | cons k0 ks ih =>
    have h0 : k0 ≠ k := by intro h; exact hk (h ▸ List.mem_cons_self k0 ks)
    have hk2 : k ∉ ks := fun h => hk (List.mem_cons_of_mem k0 h)
    have hbeq : (k0 == k) = false := beq_eq_false_iff_ne.mpr h0
    simp [List.find?, hbeq, ih hk2]

lemma filter_map_keys {β : Type} (ks : List GKey) (f : GKey → β) (k : GKey)
    (hn : ks.Nodup) (hk : k ∈ ks) :
    (ks.map (fun k2 => (k2, f k2))).filter (fun r => r.1 == k) = [(k, f k)] := by
  induction ks with
  | nil => cases hk
  | cons k0 ks ih =>
    have hn2 : ks.Nodup := hn.of_cons
    by_cases h0 : k0 = k
    · subst h0
      have hknot : k0 ∉ ks := (List.nodup_cons.mp hn).1
      have : (ks.map (fun k2 => (k2, f k2))).filter (fun r => r.1 == k0) = [] := by
        rw [List.filter_eq_nil_iff]
        intro a ha
        obtain ⟨k2, hk2, rfl⟩ := List.mem_map.mp ha
        simp only [beq_iff_eq]
        intro hEq
        exact hknot (hEq ▸ hk2)
      simp [List.filter, this]
    · have hk2 : k ∈ ks := by
        cases hk with
        | head => exact absurd rfl h0
        | tail _ h => exact h
      have hbeq : (k0 == k) = false := beq_eq_false_iff_ne.mpr (fun h => h0 h)
      simp [List.filter, hbeq, ih hn2 hk2]

lemma filter_map_keys_none {β : Type} (ks : List GKey) (f : GKey → β) (k : GKey)
    (hk : k ∉ ks) :
    (ks.map (fun k2 => (k2, f k2))).filter (fun r => r.1 == k) = [] := by
  rw [List.filter_eq_nil_iff]
  intro a ha
  obtain ⟨k2, hk2, rfl⟩ := List.mem_map.mp ha
  simp only [beq_iff_eq]
  intro hEq
  exact hk (hEq ▸ hk2)

lemma find?_append_skip {α : Type} {p : α → Bool} (xs ys : List α)
    (h : ∀ x ∈ xs, p x = false) :
    (xs ++ ys).find? p = ys.find? p := by
  have hxs : xs.find? p = none := by
    rw [List.find?_eq_none]
    intro x hx
    simp [h x hx]
  rw [List.find?_append, hxs, Option.none_or]

end PFR

namespace PFR

/-- The columns a piece contributes to a key: its column list evaluated
at the key when the key is in the piece's index, nothing otherwise. -/
def pieceColsAt (pd : PieceDesc) (k : GKey) : List (String × Option Int) :=
  if k ∈ pd.1 then pd.2.map (fun c => (c.1, c.2 k)) else []

lemma leftJoin_mkPiece_keys (pd : PieceDesc) (hn : pd.1.Nodup) :
    ∀ L, (leftJoin L (mkPiece pd)).map Prod.fst = L.map Prod.fst := by
  intro L
  induction L with
  | nil => rfl
  | cons l L ih =>
    simp only [leftJoin, List.flatMap_cons] at *
    by_cases hk : l.1 ∈ pd.1
    · rw [mkPiece, filter_map_keys pd.1 _ l.1 hn hk]
      simpa using ih
    · rw [mkPiece, filter_map_keys_none pd.1 _ l.1 hk]
      simpa using ih

end PFR

namespace PFR

lemma leftJoin_mkPiece_find (pd : PieceDesc) (hn : pd.1.Nodup) :
    ∀ (L : List (GKey × List (String × Option Int))) (k : GKey)
      (lv : List (String × Option Int)),
      L.find? (fun r => r.1 == k) = some (k, lv) →
      (leftJoin L (mkPiece pd)).find? (fun r => r.1 == k) =
        some (k, lv ++ pieceColsAt pd k) := by
  intro L
  induction L with
  | nil => intro k lv h; cases h
  | cons l L ih =>
    obtain ⟨lk, lval⟩ := l
    intro k lv h
    simp only [leftJoin, List.flatMap_cons]
    by_cases hl : lk = k
    · subst hl
      simp only [List.find?_cons, beq_self_eq_true] at h
      have hlv : lval = lv := by
        have := h
        simp only [Option.some.injEq, Prod.mk.injEq] at this
        exact this.2
      subst hlv
      by_cases hk : lk ∈ pd.1
      · rw [mkPiece, filter_map_keys pd.1 _ lk hn hk]
        simp [List.find?_cons, pieceColsAt, hk]
      · rw [mkPiece, filter_map_keys_none pd.1 _ lk hk]
        simp [List.find?_cons, pieceColsAt, hk]
    · have hbeq : (lk == k) = false := beq_eq_false_iff_ne.mpr hl
      simp only [List.find?_cons, hbeq] at h
      by_cases hk : lk ∈ pd.1
      · rw [mkPiece, filter_map_keys pd.1 _ lk hn hk]
        simp only [List.map_cons, List.map_nil, List.singleton_append, List.find?_cons, hbeq]
        exact ih k lv h
      · rw [mkPiece, filter_map_keys_none pd.1 _ lk hk]
        simp only [List.singleton_append, List.find?_cons, hbeq]
        exact ih k lv h

lemma leftJoin_mkPiece_find_none (pd : PieceDesc) (hn : pd.1.Nodup) :
    ∀ (L : List (GKey × List (String × Option Int))) (k : GKey),
      L.find? (fun r => r.1 == k) = none →
      (leftJoin L (mkPiece pd)).find? (fun r => r.1 == k) = none := by
  intro L
  induction L with
  | nil => intro k h; rfl
  | cons l L ih =>
    obtain ⟨lk, lval⟩ := l
    intro k h
    by_cases hl : lk = k
    · subst hl
      simp only [List.find?_cons, beq_self_eq_true] at h
      cases h
    · have hbeq : (lk == k) = false := beq_eq_false_iff_ne.mpr hl
      simp only [List.find?_cons, hbeq] at h
      simp only [leftJoin, List.flatMap_cons]
      by_cases hk : lk ∈ pd.1
      · rw [mkPiece, filter_map_keys pd.1 _ lk hn hk]
        simp only [List.map_cons, List.map_nil, List.singleton_append, List.find?_cons, hbeq]
        exact ih k h
      · rw [mkPiece, filter_map_keys_none pd.1 _ lk hk]
        simp only [List.singleton_append, List.find?_cons, hbeq]
        exact ih k h

end PFR

namespace PFR

lemma applyPieces_keys :
    ∀ (pds : List PieceDesc) (W : List (GKey × List (String × Option Int))),
      (∀ pd ∈ pds, pd.1.Nodup) →
      (applyPieces pds W).map Prod.fst = W.map Prod.fst := by
  intro pds
  induction pds with
  | nil => intro W h; rfl
  | cons pd pds ih =>
    intro W h
    have h1 : pd.1.Nodup := h pd (List.mem_cons_self pd pds)
    have h2 : ∀ q ∈ pds, q.1.Nodup := fun q hq => h q (List.mem_cons_of_mem pd hq)
    have hrfl : applyPieces (pd :: pds) W = applyPieces pds (leftJoin W (mkPiece pd)) := rfl
    rw [hrfl, ih _ h2, leftJoin_mkPiece_keys pd h1 W]

lemma applyPieces_find :
    ∀ (pds : List PieceDesc) (W : List (GKey × List (String × Option Int)))
      (k : GKey) (lv : List (String × Option Int)),
      (∀ pd ∈ pds, pd.1.Nodup) →
      W.find? (fun r => r.1 == k) = some (k, lv) →
      (applyPieces pds W).find? (fun r => r.1 == k) = some (k, lv ++ joinCols pds k) := by
  intro pds
  induction pds with
  | nil => intro W k lv h hf; simpa [applyPieces, joinCols] using hf
  | cons pd pds ih =>
    intro W k lv h hf
    have h1 : pd.1.Nodup := h pd (List.mem_cons_self pd pds)
    have h2 : ∀ q ∈ pds, q.1.Nodup := fun q hq => h q (List.mem_cons_of_mem pd hq)
    have hstep := leftJoin_mkPiece_find pd h1 W k lv hf
    have hrfl : applyPieces (pd :: pds) W = applyPieces pds (leftJoin W (mkPiece pd)) := rfl
    rw [hrfl, ih _ k _ h2 hstep]
    simp [joinCols, pieceColsAt, List.append_assoc]

lemma applyPieces_find_none :
    ∀ (pds : List PieceDesc) (W : List (GKey × List (String × Option Int))) (k : GKey),
      (∀ pd ∈ pds, pd.1.Nodup) →
      W.find? (fun r => r.1 == k) = none →
      (applyPieces pds W).find? (fun r => r.1 == k) = none := by
  intro pds
  induction pds with
  | nil => intro W k h hf; simpa [applyPieces] using hf
  | cons pd pds ih =>
    intro W k h hf
    have h1 : pd.1.Nodup := h pd (List.mem_cons_self pd pds)
    have h2 : ∀ q ∈ pds, q.1.Nodup := fun q hq => h q (List.mem_cons_of_mem pd hq)
    have hstep := leftJoin_mkPiece_find_none pd h1 W k hf
    have hrfl : applyPieces (pd :: pds) W = applyPieces pds (leftJoin W (mkPiece pd)) := rfl
    rw [hrfl]
    exact ih _ k h2 hstep

lemma piecesOf_nodup (tidy : List TidyRow) : ∀ pd ∈ piecesOf tidy, pd.1.Nodup := by
  intro pd hpd
  simp only [piecesOf, List.mem_append] at hpd
  have hcases : pd = intPieceDesc tidy ∨ pd = pctPieceDesc tidy ∨ pd = timePieceDesc tidy := by
    rcases hpd with (h | h) | h
    · left; revert h; split <;> simp
    · right; left; revert h; split <;> simp
    · right; right; revert h; split <;> simp
  rcases hcases with h | h | h <;> subst h
  · exact dedupFirst_nodup _
  · exact dedupFirst_nodup _
  · exact dedupFirst_nodup _

end PFR

namespace PFR

lemma str_append_left_cancel (p x y : String) (h : p ++ x = p ++ y) : x = y := by
  have h2 := congrArg String.data h
  rw [String.data_append, String.data_append] at h2
  exact String.ext (List.append_cancel_left h2)

lemma away_ne_home (x y : String) : "away_" ++ x ≠ "home_" ++ y := by
  intro h
  have h2 := congrArg String.data h
  rw [String.data_append, String.data_append] at h2
  simp at h2

lemma find?_named_map (ss : List String) (F : String → String) (v : String → Option Int)
    (s : String) (hs : s ∈ ss) (hinj : ∀ t ∈ ss, F t = F s → t = s) :
    (ss.map (fun t => (F t, v t))).find? (fun p => p.1 == F s) = some (F s, v s) := by
  induction ss with
  | nil => cases hs
  | cons t ts ih =>
    by_cases ht : F t = F s
    · have hts : t = s := hinj t (List.mem_cons_self t ts) ht
      subst hts
      simp [List.find?]
    · have hbeq : (F t == F s) = false := beq_eq_false_iff_ne.mpr ht
      have hs2 : s ∈ ts := by
        cases hs with
        | head => exact absurd rfl ht
        | tail _ h => exact h
      simp only [List.map_cons, List.find?_cons, hbeq]
      exact ih hs2 (fun t2 ht2 he => hinj t2 (List.mem_cons_of_mem t ht2) he)

lemma find?_named_map_none (ss : List String) (F : String → String) (v : String → Option Int)
    (c : String) (h : ∀ t ∈ ss, F t ≠ c) :
    (ss.map (fun t => (F t, v t))).find? (fun p => p.1 == c) = none := by
  rw [List.find?_eq_none]
  intro p hp
  obtain ⟨t, ht, rfl⟩ := List.mem_map.mp hp
  simpa using h t ht

lemma colLookup_append_left (xs ys : List (String × Option Int)) (c : String)
    (p0 : String × Option Int) (h : xs.find? (fun p => p.1 == c) = some p0) :
    colLookup (xs ++ ys) c = p0.2 := by
  unfold colLookup
  rw [List.find?_append, h]
  rfl

lemma colLookup_append_right (xs ys : List (String × Option Int)) (c : String)
    (h : xs.find? (fun p => p.1 == c) = none) :
    colLookup (xs ++ ys) c = colLookup ys c := by
  unfold colLookup
  rw [List.find?_append, h, Option.none_or]

lemma colLookup_nil (c : String) : colLookup [] c = none := rfl

lemma pivotCell_no_key {α : Type} (sub : List (GKey × String × α)) (k : GKey) (s : String)
    (f : α → Option Int) (hk : k ∉ keysOf sub) : pivotCell sub k s f = none := by
  have hfil : sub.filter (fun r => r.1 == k && r.2.1 == s) = [] := by
    rw [List.filter_eq_nil_iff]
    intro r hr
    have hmem : r.1 ∈ keysOf sub := by
      rw [keysOf, dedupFirst_mem]
      exact List.mem_map_of_mem _ hr
    simp only [Bool.and_eq_true, beq_iff_eq, not_and]
    intro hEq
    exact absurd (hEq ▸ hmem) hk
  simp [pivotCell, hfil, firstNonNull]

lemma pivotCell_no_stat {α : Type} (sub : List (GKey × String × α)) (k : GKey) (s : String)
    (f : α → Option Int) (hs : s ∉ statsOf sub) : pivotCell sub k s f = none := by
  have hfil : sub.filter (fun r => r.1 == k && r.2.1 == s) = [] := by
    rw [List.filter_eq_nil_iff]
    intro r hr
    have hmem : r.2.1 ∈ statsOf sub := by
      rw [statsOf, dedupFirst_mem]
      exact List.mem_map_of_mem _ hr
    simp only [Bool.and_eq_true, beq_iff_eq, not_and]
    intro _ hEq
    exact absurd (hEq ▸ hmem) hs
  simp [pivotCell, hfil, firstNonNull]

lemma statsOf_sub_int (tidy : List TidyRow) : ∀ s ∈ statsOf (intSubRows tidy), s ∈ INT_LIKE := by
  intro s hs
  rw [statsOf, dedupFirst_mem] at hs
  obtain ⟨r, hr, rfl⟩ := List.mem_map.mp hs
  rw [intSubRows, dedupFirst_mem] at hr
  obtain ⟨t, ht, rfl⟩ := List.mem_map.mp hr
  have := List.of_mem_filter ht
  simpa using this

lemma statsOf_sub_pct (tidy : List TidyRow) : ∀ s ∈ statsOf (pctSubRows tidy), s ∈ PCT_LIKE := by
  intro s hs
  rw [statsOf, dedupFirst_mem] at hs
  obtain ⟨r, hr, rfl⟩ := List.mem_map.mp hs
  rw [pctSubRows, dedupFirst_mem] at hr
  obtain ⟨t, ht, rfl⟩ := List.mem_map.mp hr
  have := List.of_mem_filter ht
  simpa using this

lemma statsOf_sub_time (tidy : List TidyRow) : ∀ s ∈ statsOf (timeSubRows tidy), s ∈ TIME_LIKE := by
  intro s hs
  rw [statsOf, dedupFirst_mem] at hs
  obtain ⟨r, hr, rfl⟩ := List.mem_map.mp hs
  rw [timeSubRows, dedupFirst_mem] at hr
  obtain ⟨t, ht, rfl⟩ := List.mem_map.mp hr
  have := List.of_mem_filter ht
  simpa using this

lemma subKeys_in_base_int (tidy : List TidyRow) (k : GKey)
    (hk : k ∉ baseKeys tidy) : k ∉ keysOf (intSubRows tidy) := by
  intro hmem
  rw [keysOf, dedupFirst_mem] at hmem
  obtain ⟨r, hr, rfl⟩ := List.mem_map.mp hmem
  rw [intSubRows, dedupFirst_mem] at hr
  obtain ⟨t, ht, rfl⟩ := List.mem_map.mp hr
  exact hk (by
    rw [baseKeys, dedupFirst_mem]
    exact List.mem_map_of_mem _ (List.mem_of_mem_filter ht))

lemma subKeys_in_base_pct (tidy : List TidyRow) (k : GKey)
    (hk : k ∉ baseKeys tidy) : k ∉ keysOf (pctSubRows tidy) := by
  intro hmem
  rw [keysOf, dedupFirst_mem] at hmem
  obtain ⟨r, hr, rfl⟩ := List.mem_map.mp hmem
  rw [pctSubRows, dedupFirst_mem] at hr
  obtain ⟨t, ht, rfl⟩ := List.mem_map.mp hr
  exact hk (by
    rw [baseKeys, dedupFirst_mem]
    exact List.mem_map_of_mem _ (List.mem_of_mem_filter ht))

lemma subKeys_in_base_time (tidy : List TidyRow) (k : GKey)
    (hk : k ∉ baseKeys tidy) : k ∉ keysOf (timeSubRows tidy) := by
  intro hmem
  rw [keysOf, dedupFirst_mem] at hmem
  obtain ⟨r, hr, rfl⟩ := List.mem_map.mp hmem
  rw [timeSubRows, dedupFirst_mem] at hr
  obtain ⟨t, ht, rfl⟩ := List.mem_map.mp hr
  exact hk (by
    rw [baseKeys, dedupFirst_mem]
    exact List.mem_map_of_mem _ (List.mem_of_mem_filter ht))

end PFR

namespace PFR

lemma pivotTotalsWide_keys (tidy : List TidyRow) (hne : tidy ≠ [])
    (hp : piecesOf tidy ≠ []) :
    (pivotTotalsWide tidy).map Prod.fst = baseKeys tidy := by
  have hA : tidy.isEmpty = false := by simpa [List.isEmpty_iff] using hne
  have hB : (piecesOf tidy).isEmpty = false := by simpa [List.isEmpty_iff] using hp
  unfold pivotTotalsWide
  rw [hA, hB]
  simp only [Bool.false_eq_true, if_false]
  rw [applyPieces_keys _ _ (piecesOf_nodup tidy)]
  have hcomp : (Prod.fst ∘ fun k : GKey => (k, ([] : List (String × Option Int)))) = id := rfl
  rw [List.map_map, hcomp, List.map_id]

lemma wideCell_pivot (tidy : List TidyRow) (hne : tidy ≠ []) (hp : piecesOf tidy ≠ [])
    (k : GKey) (c : String) :
    wideCell (pivotTotalsWide tidy) k c =
      if k ∈ baseKeys tidy then colLookup (joinCols (piecesOf tidy) k) c else none := by
  have hA : tidy.isEmpty = false := by simpa [List.isEmpty_iff] using hne
  have hB : (piecesOf tidy).isEmpty = false := by simpa [List.isEmpty_iff] using hp
  unfold pivotTotalsWide wideCell
  rw [hA, hB]
  simp only [Bool.false_eq_true, if_false]
  by_cases hk : k ∈ baseKeys tidy
  · have hbase := find?_map_keys (baseKeys tidy)
      (fun _ => ([] : List (String × Option Int))) k hk
    rw [applyPieces_find _ _ k [] (piecesOf_nodup tidy) hbase]
    simp [hk]
  · have hbase := find?_map_keys_none (baseKeys tidy)
      (fun _ => ([] : List (String × Option Int))) k hk
    rw [applyPieces_find_none _ _ k (piecesOf_nodup tidy) hbase]
    simp [hk]

lemma pieceColsAt_empty_sub_int (tidy : List TidyRow) (k : GKey)
    (h : intSubRows tidy = []) : pieceColsAt (intPieceDesc tidy) k = [] := by
  simp [pieceColsAt, intPieceDesc, keysOf, h, dedupFirst, dedupAux]

lemma pieceColsAt_empty_sub_pct (tidy : List TidyRow) (k : GKey)
    (h : pctSubRows tidy = []) : pieceColsAt (pctPieceDesc tidy) k = [] := by
  simp [pieceColsAt, pctPieceDesc, keysOf, h, dedupFirst, dedupAux]

lemma pieceColsAt_empty_sub_time (tidy : List TidyRow) (k : GKey)
    (h : timeSubRows tidy = []) : pieceColsAt (timePieceDesc tidy) k = [] := by
  simp [pieceColsAt, timePieceDesc, keysOf, h, dedupFirst, dedupAux]

lemma joinCols_cons (pd : PieceDesc) (rest : List PieceDesc) (k : GKey) :
    joinCols (pd :: rest) k = pieceColsAt pd k ++ joinCols rest k := rfl

lemma joinCols_piecesOf (tidy : List TidyRow) (k : GKey) :
    joinCols (piecesOf tidy) k =
      pieceColsAt (intPieceDesc tidy) k ++ pieceColsAt (pctPieceDesc tidy) k ++
        pieceColsAt (timePieceDesc tidy) k := by
  have step : ∀ (c : Bool) (pd : PieceDesc) (X : List PieceDesc),
      (c = true → pieceColsAt pd k = []) →
      joinCols ((if c then [] else [pd]) ++ X) k = pieceColsAt pd k ++ joinCols X k := by
    intro c pd X hc
    cases c
    · rw [if_neg (by simp)]
      rfl
    · rw [if_pos rfl, List.nil_append, hc rfl, List.nil_append]
  unfold piecesOf
  rw [List.append_assoc,
    step _ _ _ (fun h => pieceColsAt_empty_sub_int tidy k (List.isEmpty_iff.mp h)),
    step _ _ _ (fun h => pieceColsAt_empty_sub_pct tidy k (List.isEmpty_iff.mp h))]
  have step2 : ∀ (c : Bool) (pd : PieceDesc),
      (c = true → pieceColsAt pd k = []) →
      joinCols (if c then [] else [pd]) k = pieceColsAt pd k := by
    intro c pd hc
    cases c
    · rw [if_neg (by simp)]
      simp [joinCols, joinCols_cons, pieceColsAt]
    · rw [if_pos rfl, hc rfl]
      rfl
  rw [step2 _ _ (fun h => pieceColsAt_empty_sub_time tidy k (List.isEmpty_iff.mp h)),
    List.append_assoc]

end PFR

namespace PFR

lemma colLookup_none (xs : List (String × Option Int)) (c : String)
    (h : xs.find? (fun p => p.1 == c) = none) : colLookup xs c = none := by
  unfold colLookup
  rw [h]

lemma find?_pieceColsAt_none (pd : PieceDesc) (k : GKey) (c : String)
    (h : ∀ p ∈ pd.2, p.1 ≠ c) :
    (pieceColsAt pd k).find? (fun p => p.1 == c) = none := by
  unfold pieceColsAt
  split
  · rw [List.find?_eq_none]
    intro p hp
    obtain ⟨c0, hc0, rfl⟩ := List.mem_map.mp hp
    simpa using h c0 hc0
  · rfl

lemma intSeg_names (tidy : List TidyRow) :
    ∀ p ∈ (intPieceDesc tidy).2, ∃ t, t ∈ INT_LIKE ∧
      (p.1 = "away_" ++ t ∨ p.1 = "home_" ++ t) := by
  intro p hp
  simp only [intPieceDesc, List.mem_append, List.mem_map] at hp
  rcases hp with ⟨t, ht, rfl⟩ | ⟨t, ht, rfl⟩
  · exact ⟨t, statsOf_sub_int tidy t ht, Or.inl rfl⟩
  · exact ⟨t, statsOf_sub_int tidy t ht, Or.inr rfl⟩

lemma pctSeg_names (tidy : List TidyRow) :
    ∀ p ∈ (pctPieceDesc tidy).2, ∃ t, t ∈ PCT_LIKE ∧
      (p.1 = "away_" ++ t ++ "_made" ∨ p.1 = "away_" ++ t ++ "_att" ∨
       p.1 = "home_" ++ t ++ "_made" ∨ p.1 = "home_" ++ t ++ "_att") := by
  intro p hp
  simp only [pctPieceDesc, List.mem_append, List.mem_map] at hp
  rcases hp with ((⟨t, ht, rfl⟩ | ⟨t, ht, rfl⟩) | ⟨t, ht, rfl⟩) | ⟨t, ht, rfl⟩
  · exact ⟨t, statsOf_sub_pct tidy t ht, Or.inl rfl⟩
  · exact ⟨t, statsOf_sub_pct tidy t ht, Or.inr (Or.inl rfl)⟩
  · exact ⟨t, statsOf_sub_pct tidy t ht, Or.inr (Or.inr (Or.inl rfl))⟩
  · exact ⟨t, statsOf_sub_pct tidy t ht, Or.inr (Or.inr (Or.inr rfl))⟩

lemma timeSeg_names (tidy : List TidyRow) :
    ∀ p ∈ (timePieceDesc tidy).2, ∃ t, t ∈ TIME_LIKE ∧
      (p.1 = "away_" ++ t ++ "_seconds" ∨ p.1 = "home_" ++ t ++ "_seconds") := by
  intro p hp
  simp only [timePieceDesc, List.mem_append, List.mem_map] at hp
  rcases hp with ⟨t, ht, rfl⟩ | ⟨t, ht, rfl⟩
  · exact ⟨t, statsOf_sub_time tidy t ht, Or.inl rfl⟩
  · exact ⟨t, statsOf_sub_time tidy t ht, Or.inr rfl⟩

end PFR

namespace PFR

lemma name_int_ne_pct (s t : String) (hs : s ∈ INT_LIKE) (ht : t ∈ PCT_LIKE) :
    "away_" ++ s ≠ "away_" ++ t ++ "_made" ∧ "away_" ++ s ≠ "away_" ++ t ++ "_att" ∧
    "home_" ++ s ≠ "home_" ++ t ++ "_made" ∧ "home_" ++ s ≠ "home_" ++ t ++ "_att" := by
  fin_cases hs <;> fin_cases ht <;> exact ⟨by decide, by decide, by decide, by decide⟩

lemma name_int_ne_time (s t : String) (hs : s ∈ INT_LIKE) (ht : t ∈ TIME_LIKE) :
    "away_" ++ s ≠ "away_" ++ t ++ "_seconds" ∧
    "home_" ++ s ≠ "home_" ++ t ++ "_seconds" := by
  fin_cases hs <;> fin_cases ht <;> exact ⟨by decide, by decide⟩

lemma name_pct_made_ne_att (s t : String) (hs : s ∈ PCT_LIKE) (ht : t ∈ PCT_LIKE) :
    "away_" ++ s ++ "_made" ≠ "away_" ++ t ++ "_att" ∧
    "home_" ++ s ++ "_made" ≠ "home_" ++ t ++ "_att" := by
  fin_cases hs <;> fin_cases ht <;> exact ⟨by decide, by decide⟩

lemma name_pct_ne_time (s t : String) (hs : s ∈ PCT_LIKE) (ht : t ∈ TIME_LIKE) :
    "away_" ++ s ++ "_made" ≠ "away_" ++ t ++ "_seconds" ∧
    "away_" ++ s ++ "_att" ≠ "away_" ++ t ++ "_seconds" ∧
    "home_" ++ s ++ "_made" ≠ "home_" ++ t ++ "_seconds" ∧
    "home_" ++ s ++ "_att" ≠ "home_" ++ t ++ "_seconds" := by
  fin_cases hs <;> fin_cases ht <;> exact ⟨by decide, by decide, by decide, by decide⟩

lemma name_pct_inj_made (s t : String) (hs : s ∈ PCT_LIKE) (ht : t ∈ PCT_LIKE) :
    "away_" ++ s ++ "_made" = "away_" ++ t ++ "_made" → s = t := by
  fin_cases hs <;> fin_cases ht <;> decide

lemma name_pct_inj_att (s t : String) (hs : s ∈ PCT_LIKE) (ht : t ∈ PCT_LIKE) :
    "away_" ++ s ++ "_att" = "away_" ++ t ++ "_att" → s = t := by
  fin_cases hs <;> fin_cases ht <;> decide

lemma name_pct_inj_made_h (s t : String) (hs : s ∈ PCT_LIKE) (ht : t ∈ PCT_LIKE) :
    "home_" ++ s ++ "_made" = "home_" ++ t ++ "_made" → s = t := by
  fin_cases hs <;> fin_cases ht <;> decide

lemma name_pct_inj_att_h (s t : String) (hs : s ∈ PCT_LIKE) (ht : t ∈ PCT_LIKE) :
    "home_" ++ s ++ "_att" = "home_" ++ t ++ "_att" → s = t := by
  fin_cases hs <;> fin_cases ht <;> decide

lemma name_time_inj (s t : String) (hs : s ∈ TIME_LIKE) (ht : t ∈ TIME_LIKE) :
    ("away_" ++ s ++ "_seconds" = "away_" ++ t ++ "_seconds" → s = t) ∧
    ("home_" ++ s ++ "_seconds" = "home_" ++ t ++ "_seconds" → s = t) := by
  fin_cases hs <;> fin_cases ht <;> exact ⟨by decide, by decide⟩

lemma intSeg_pos (tidy : List TidyRow) (k : GKey) (hk : k ∈ keysOf (intSubRows tidy)) :
    pieceColsAt (intPieceDesc tidy) k =
      (statsOf (intSubRows tidy)).map
        (fun t => ("away_" ++ t, pivotCell (intSubRows tidy) k t Prod.fst)) ++
      (statsOf (intSubRows tidy)).map
        (fun t => ("home_" ++ t, pivotCell (intSubRows tidy) k t Prod.snd)) := by
  simp [pieceColsAt, intPieceDesc, hk, List.map_map, Function.comp_def]

lemma intSeg_neg (tidy : List TidyRow) (k : GKey) (hk : k ∉ keysOf (intSubRows tidy)) :
    pieceColsAt (intPieceDesc tidy) k = [] := by
  simp [pieceColsAt, intPieceDesc, hk]

lemma pctSeg_pos (tidy : List TidyRow) (k : GKey) (hk : k ∈ keysOf (pctSubRows tidy)) :
    pieceColsAt (pctPieceDesc tidy) k =
      (statsOf (pctSubRows tidy)).map
        (fun t => ("away_" ++ t ++ "_made", pivotCell (pctSubRows tidy) k t PctVals.am)) ++
      (statsOf (pctSubRows tidy)).map
        (fun t => ("away_" ++ t ++ "_att", pivotCell (pctSubRows tidy) k t PctVals.aa)) ++
      (statsOf (pctSubRows tidy)).map
        (fun t => ("home_" ++ t ++ "_made", pivotCell (pctSubRows tidy) k t PctVals.hm)) ++
      (statsOf (pctSubRows tidy)).map
        (fun t => ("home_" ++ t ++ "_att", pivotCell (pctSubRows tidy) k t PctVals.ha)) := by
  simp [pieceColsAt, pctPieceDesc, hk, List.map_map, Function.comp_def, List.append_assoc]

lemma pctSeg_neg (tidy : List TidyRow) (k : GKey) (hk : k ∉ keysOf (pctSubRows tidy)) :
    pieceColsAt (pctPieceDesc tidy) k = [] := by
  simp [pieceColsAt, pctPieceDesc, hk]

lemma timeSeg_pos (tidy : List TidyRow) (k : GKey) (hk : k ∈ keysOf (timeSubRows tidy)) :
    pieceColsAt (timePieceDesc tidy) k =
      (statsOf (timeSubRows tidy)).map
        (fun t => ("away_" ++ t ++ "_seconds", pivotCell (timeSubRows tidy) k t Prod.fst)) ++
      (statsOf (timeSubRows tidy)).map
        (fun t => ("home_" ++ t ++ "_seconds", pivotCell (timeSubRows tidy) k t Prod.snd)) := by
  simp [pieceColsAt, timePieceDesc, hk, List.map_map, Function.comp_def]

lemma timeSeg_neg (tidy : List TidyRow) (k : GKey) (hk : k ∉ keysOf (timeSubRows tidy)) :
    pieceColsAt (timePieceDesc tidy) k = [] := by
  simp [pieceColsAt, timePieceDesc, hk]

end PFR

namespace PFR

lemma away_ne_home_app (x y z : String) : "away_" ++ x ≠ "home_" ++ y ++ z := by
  intro h
  have h2 := congrArg String.data h
  rw [String.data_append, String.data_append, String.data_append] at h2
  simp at h2

lemma home_ne_away_app (x y z : String) : "home_" ++ x ≠ "away_" ++ y ++ z := by
  intro h
  have h2 := congrArg String.data h
  rw [String.data_append, String.data_append, String.data_append] at h2
  simp at h2

lemma away_app_ne_home_app (x y z w : String) : "away_" ++ x ++ z ≠ "home_" ++ y ++ w := by
  intro h
  have h2 := congrArg String.data h
  rw [String.data_append, String.data_append, String.data_append, String.data_append] at h2
  simp at h2

lemma home_app_ne_away_app (x y z w : String) : "home_" ++ x ++ z ≠ "away_" ++ y ++ w := by
  intro h
  have h2 := congrArg String.data h
  rw [String.data_append, String.data_append, String.data_append, String.data_append] at h2
  simp at h2

lemma wideCell_int_away (tidy : List TidyRow) (hne : tidy ≠ []) (hp : piecesOf tidy ≠ [])
    (k : GKey) (s : String) (hs : s ∈ INT_LIKE) :
    wideCell (pivotTotalsWide tidy) k ("away_" ++ s) =
      pivotCell (intSubRows tidy) k s Prod.fst := by
  rw [wideCell_pivot tidy hne hp]
  by_cases hk : k ∈ baseKeys tidy
  case neg =>
    rw [if_neg hk]
    exact (pivotCell_no_key _ _ _ _ (subKeys_in_base_int tidy k hk)).symm
  rw [if_pos hk, joinCols_piecesOf, List.append_assoc]
  have hpctskip : (pieceColsAt (pctPieceDesc tidy) k).find?
      (fun p => p.1 == "away_" ++ s) = none := by
    apply find?_pieceColsAt_none
    intro p hp2
    obtain ⟨t, htp, hname⟩ := pctSeg_names tidy p hp2
    rcases hname with h | h | h | h <;> rw [h]
    · exact Ne.symm (name_int_ne_pct s t hs htp).1
    · exact Ne.symm (name_int_ne_pct s t hs htp).2.1
    · exact Ne.symm (away_ne_home_app s t "_made")
    · exact Ne.symm (away_ne_home_app s t "_att")
  have htimeskip : (pieceColsAt (timePieceDesc tidy) k).find?
      (fun p => p.1 == "away_" ++ s) = none := by
    apply find?_pieceColsAt_none
    intro p hp2
    obtain ⟨t, htp, hname⟩ := timeSeg_names tidy p hp2
    rcases hname with h | h <;> rw [h]
    · exact Ne.symm (name_int_ne_time s t hs htp).1
    · exact Ne.symm (away_ne_home_app s t "_seconds")
  by_cases hkI : k ∈ keysOf (intSubRows tidy)
  case neg =>
    rw [intSeg_neg tidy k hkI, List.nil_append,
      colLookup_append_right _ _ _ hpctskip, colLookup_none _ _ htimeskip]
    exact (pivotCell_no_key _ _ _ _ hkI).symm
  rw [intSeg_pos tidy k hkI, List.append_assoc]
  by_cases hsI : s ∈ statsOf (intSubRows tidy)
  case pos =>
    have hfind := find?_named_map (statsOf (intSubRows tidy)) (fun t => "away_" ++ t)
      (fun t => pivotCell (intSubRows tidy) k t Prod.fst) s hsI
      (fun t _ h => str_append_left_cancel _ _ _ h)
    exact colLookup_append_left _ _ _ _ hfind
  case neg =>
    have hawayskip := find?_named_map_none (statsOf (intSubRows tidy)) (fun t => "away_" ++ t)
      (fun t => pivotCell (intSubRows tidy) k t Prod.fst) ("away_" ++ s)
      (fun t ht h => hsI (str_append_left_cancel _ _ _ h ▸ ht))
    have hhomeskip := find?_named_map_none (statsOf (intSubRows tidy)) (fun t => "home_" ++ t)
      (fun t => pivotCell (intSubRows tidy) k t Prod.snd) ("away_" ++ s)
      (fun t _ h => away_ne_home s t h.symm)
    rw [colLookup_append_right _ _ _ hawayskip, colLookup_append_right _ _ _ hhomeskip,
      colLookup_append_right _ _ _ hpctskip, colLookup_none _ _ htimeskip]
    exact (pivotCell_no_stat _ _ _ _ hsI).symm

lemma wideCell_int_home (tidy : List TidyRow) (hne : tidy ≠ []) (hp : piecesOf tidy ≠ [])
    (k : GKey) (s : String) (hs : s ∈ INT_LIKE) :
    wideCell (pivotTotalsWide tidy) k ("home_" ++ s) =
      pivotCell (intSubRows tidy) k s Prod.snd := by
  rw [wideCell_pivot tidy hne hp]
  by_cases hk : k ∈ baseKeys tidy
  case neg =>
    rw [if_neg hk]
    exact (pivotCell_no_key _ _ _ _ (subKeys_in_base_int tidy k hk)).symm
  rw [if_pos hk, joinCols_piecesOf, List.append_assoc]
  have hpctskip : (pieceColsAt (pctPieceDesc tidy) k).find?
      (fun p => p.1 == "home_" ++ s) = none := by
    apply find?_pieceColsAt_none
    intro p hp2
    obtain ⟨t, htp, hname⟩ := pctSeg_names tidy p hp2
    rcases hname with h | h | h | h <;> rw [h]
    · exact Ne.symm (home_ne_away_app s t "_made")
    · exact Ne.symm (home_ne_away_app s t "_att")
    · exact Ne.symm (name_int_ne_pct s t hs htp).2.2.1
    · exact Ne.symm (name_int_ne_pct s t hs htp).2.2.2
  have htimeskip : (pieceColsAt (timePieceDesc tidy) k).find?
      (fun p => p.1 == "home_" ++ s) = none := by
    apply find?_pieceColsAt_none
    intro p hp2
    obtain ⟨t, htp, hname⟩ := timeSeg_names tidy p hp2
    rcases hname with h | h <;> rw [h]
    · exact Ne.symm (home_ne_away_app s t "_seconds")
    · exact Ne.symm (name_int_ne_time s t hs htp).2
  by_cases hkI : k ∈ keysOf (intSubRows tidy)
  case neg =>
    rw [intSeg_neg tidy k hkI, List.nil_append,
      colLookup_append_right _ _ _ hpctskip, colLookup_none _ _ htimeskip]
    exact (pivotCell_no_key _ _ _ _ hkI).symm
  rw [intSeg_pos tidy k hkI, List.append_assoc]
  have hawayskip := find?_named_map_none (statsOf (intSubRows tidy)) (fun t => "away_" ++ t)
    (fun t => pivotCell (intSubRows tidy) k t Prod.fst) ("home_" ++ s)
    (fun t _ h => away_ne_home t s h)
  rw [colLookup_append_right _ _ _ hawayskip]
  by_cases hsI : s ∈ statsOf (intSubRows tidy)
  case pos =>
    have hfind := find?_named_map (statsOf (intSubRows tidy)) (fun t => "home_" ++ t)
      (fun t => pivotCell (intSubRows tidy) k t Prod.snd) s hsI
      (fun t _ h => str_append_left_cancel _ _ _ h)
    exact colLookup_append_left _ _ _ _ hfind
  case neg =>
    have hhomeskip := find?_named_map_none (statsOf (intSubRows tidy)) (fun t => "home_" ++ t)
      (fun t => pivotCell (intSubRows tidy) k t Prod.snd) ("home_" ++ s)
      (fun t ht h => hsI (str_append_left_cancel _ _ _ h ▸ ht))
    rw [colLookup_append_right _ _ _ hhomeskip,
      colLookup_append_right _ _ _ hpctskip, colLookup_none _ _ htimeskip]
    exact (pivotCell_no_stat _ _ _ _ hsI).symm

end PFR

namespace PFR

lemma wideCell_pct_away_made (tidy : List TidyRow) (hne : tidy ≠ []) (hp : piecesOf tidy ≠ [])
    (k : GKey) (s : String) (hs : s ∈ PCT_LIKE) :
    wideCell (pivotTotalsWide tidy) k ("away_" ++ s ++ "_made") =
      pivotCell (pctSubRows tidy) k s PctVals.am := by
  rw [wideCell_pivot tidy hne hp]
  by_cases hk : k ∈ baseKeys tidy
  case neg =>
    rw [if_neg hk]
    exact (pivotCell_no_key _ _ _ _ (subKeys_in_base_pct tidy k hk)).symm
  rw [if_pos hk, joinCols_piecesOf]
  simp only [List.append_assoc]
  have hintskip : (pieceColsAt (intPieceDesc tidy) k).find?
      (fun p => p.1 == "away_" ++ s ++ "_made") = none := by
    apply find?_pieceColsAt_none
    intro p hp2
    obtain ⟨t, htp, hname⟩ := intSeg_names tidy p hp2
    rcases hname with h | h <;> rw [h]
    · exact (name_int_ne_pct t s htp hs).1
    · exact home_ne_away_app t s "_made"
  have htimeskip : (pieceColsAt (timePieceDesc tidy) k).find?
      (fun p => p.1 == "away_" ++ s ++ "_made") = none := by
    apply find?_pieceColsAt_none
    intro p hp2
    obtain ⟨t, htp, hname⟩ := timeSeg_names tidy p hp2
    rcases hname with h | h <;> rw [h]
    · exact Ne.symm (name_pct_ne_time s t hs htp).1
    · exact home_app_ne_away_app t s "_seconds" "_made"
  rw [colLookup_append_right _ _ _ hintskip]
  by_cases hkP : k ∈ keysOf (pctSubRows tidy)
  case neg =>
    rw [pctSeg_neg tidy k hkP, List.nil_append, colLookup_none _ _ htimeskip]
    exact (pivotCell_no_key _ _ _ _ hkP).symm
  rw [pctSeg_pos tidy k hkP]
  simp only [List.append_assoc]
  by_cases hsP : s ∈ statsOf (pctSubRows tidy)
  case pos =>
    have hfind := find?_named_map (statsOf (pctSubRows tidy))
      (fun t => "away_" ++ t ++ "_made")
      (fun t => pivotCell (pctSubRows tidy) k t PctVals.am) s hsP
      (fun t ht h => name_pct_inj_made t s (statsOf_sub_pct tidy t ht) hs h)
    exact colLookup_append_left _ _ _ _ hfind
  case neg =>
    have h1 := find?_named_map_none (statsOf (pctSubRows tidy))
      (fun t => "away_" ++ t ++ "_made")
      (fun t => pivotCell (pctSubRows tidy) k t PctVals.am) ("away_" ++ s ++ "_made")
      (fun t ht h => hsP (name_pct_inj_made t s (statsOf_sub_pct tidy t ht) hs h ▸ ht))
    have h2 := find?_named_map_none (statsOf (pctSubRows tidy))
      (fun t => "away_" ++ t ++ "_att")
      (fun t => pivotCell (pctSubRows tidy) k t PctVals.aa) ("away_" ++ s ++ "_made")
      (fun t ht => Ne.symm (name_pct_made_ne_att s t hs (statsOf_sub_pct tidy t ht)).1)
    have h3 := find?_named_map_none (statsOf (pctSubRows tidy))
      (fun t => "home_" ++ t ++ "_made")
      (fun t => pivotCell (pctSubRows tidy) k t PctVals.hm) ("away_" ++ s ++ "_made")
      (fun t _ => home_app_ne_away_app t s "_made" "_made")
    have h4 := find?_named_map_none (statsOf (pctSubRows tidy))
      (fun t => "home_" ++ t ++ "_att")
      (fun t => pivotCell (pctSubRows tidy) k t PctVals.ha) ("away_" ++ s ++ "_made")
      (fun t _ => home_app_ne_away_app t s "_att" "_made")
    rw [colLookup_append_right _ _ _ h1, colLookup_append_right _ _ _ h2,
      colLookup_append_right _ _ _ h3, colLookup_append_right _ _ _ h4,
      colLookup_none _ _ htimeskip]
    exact (pivotCell_no_stat _ _ _ _ hsP).symm

lemma wideCell_pct_away_att (tidy : List TidyRow) (hne : tidy ≠ []) (hp : piecesOf tidy ≠ [])
    (k : GKey) (s : String) (hs : s ∈ PCT_LIKE) :
    wideCell (pivotTotalsWide tidy) k ("away_" ++ s ++ "_att") =
      pivotCell (pctSubRows tidy) k s PctVals.aa := by
  rw [wideCell_pivot tidy hne hp]
  by_cases hk : k ∈ baseKeys tidy
  case neg =>
    rw [if_neg hk]
    exact (pivotCell_no_key _ _ _ _ (subKeys_in_base_pct tidy k hk)).symm
  rw [if_pos hk, joinCols_piecesOf]
  simp only [List.append_assoc]
  have hintskip : (pieceColsAt (intPieceDesc tidy) k).find?
      (fun p => p.1 == "away_" ++ s ++ "_att") = none := by
    apply find?_pieceColsAt_none
    intro p hp2
    obtain ⟨t, htp, hname⟩ := intSeg_names tidy p hp2
    rcases hname with h | h <;> rw [h]
    · exact (name_int_ne_pct t s htp hs).2.1
    · exact home_ne_away_app t s "_att"
  have htimeskip : (pieceColsAt (timePieceDesc tidy) k).find?
      (fun p => p.1 == "away_" ++ s ++ "_att") = none := by
    apply find?_pieceColsAt_none
    intro p hp2
    obtain ⟨t, htp, hname⟩ := timeSeg_names tidy p hp2
    rcases hname with h | h <;> rw [h]
    · exact Ne.symm (name_pct_ne_time s t hs htp).2.1
    · exact home_app_ne_away_app t s "_seconds" "_att"
  rw [colLookup_append_right _ _ _ hintskip]
  by_cases hkP : k ∈ keysOf (pctSubRows tidy)
  case neg =>
    rw [pctSeg_neg tidy k hkP, List.nil_append, colLookup_none _ _ htimeskip]
    exact (pivotCell_no_key _ _ _ _ hkP).symm
  rw [pctSeg_pos tidy k hkP]
  simp only [List.append_assoc]
  have h1 := find?_named_map_none (statsOf (pctSubRows tidy))
    (fun t => "away_" ++ t ++ "_made")
    (fun t => pivotCell (pctSubRows tidy) k t PctVals.am) ("away_" ++ s ++ "_att")
    (fun t ht => (name_pct_made_ne_att t s (statsOf_sub_pct tidy t ht) hs).1)
  rw [colLookup_append_right _ _ _ h1]
  by_cases hsP : s ∈ statsOf (pctSubRows tidy)
  case pos =>
    have hfind := find?_named_map (statsOf (pctSubRows tidy))
      (fun t => "away_" ++ t ++ "_att")
      (fun t => pivotCell (pctSubRows tidy) k t PctVals.aa) s hsP
      (fun t ht h => name_pct_inj_att t s (statsOf_sub_pct tidy t ht) hs h)
    exact colLookup_append_left _ _ _ _ hfind
  case neg =>
    have h2 := find?_named_map_none (statsOf (pctSubRows tidy))
      (fun t => "away_" ++ t ++ "_att")
      (fun t => pivotCell (pctSubRows tidy) k t PctVals.aa) ("away_" ++ s ++ "_att")
      (fun t ht h => hsP (name_pct_inj_att t s (statsOf_sub_pct tidy t ht) hs h ▸ ht))
    have h3 := find?_named_map_none (statsOf (pctSubRows tidy))
      (fun t => "home_" ++ t ++ "_made")
      (fun t => pivotCell (pctSubRows tidy) k t PctVals.hm) ("away_" ++ s ++ "_att")
      (fun t _ => home_app_ne_away_app t s "_made" "_att")
    have h4 := find?_named_map_none (statsOf (pctSubRows tidy))
      (fun t => "home_" ++ t ++ "_att")
      (fun t => pivotCell (pctSubRows tidy) k t PctVals.ha) ("away_" ++ s ++ "_att")
      (fun t _ => home_app_ne_away_app t s "_att" "_att")
    rw [colLookup_append_right _ _ _ h2, colLookup_append_right _ _ _ h3,
      colLookup_append_right _ _ _ h4, colLookup_none _ _ htimeskip]
    exact (pivotCell_no_stat _ _ _ _ hsP).symm

end PFR

namespace PFR

lemma wideCell_pct_home_made (tidy : List TidyRow) (hne : tidy ≠ []) (hp : piecesOf tidy ≠ [])
    (k : GKey) (s : String) (hs : s ∈ PCT_LIKE) :
    wideCell (pivotTotalsWide tidy) k ("home_" ++ s ++ "_made") =
      pivotCell (pctSubRows tidy) k s PctVals.hm := by
  rw [wideCell_pivot tidy hne hp]
  by_cases hk : k ∈ baseKeys tidy
  case neg =>
    rw [if_neg hk]
    exact (pivotCell_no_key _ _ _ _ (subKeys_in_base_pct tidy k hk)).symm
  rw [if_pos hk, joinCols_piecesOf]
  simp only [List.append_assoc]
  have hintskip : (pieceColsAt (intPieceDesc tidy) k).find?
      (fun p => p.1 == "home_" ++ s ++ "_made") = none := by
    apply find?_pieceColsAt_none
    intro p hp2
    obtain ⟨t, htp, hname⟩ := intSeg_names tidy p hp2
    rcases hname with h | h <;> rw [h]
    · exact away_ne_home_app t s "_made"
    · exact (name_int_ne_pct t s htp hs).2.2.1
  have htimeskip : (pieceColsAt (timePieceDesc tidy) k).find?
      (fun p => p.1 == "home_" ++ s ++ "_made") = none := by
    apply find?_pieceColsAt_none
    intro p hp2
    obtain ⟨t, htp, hname⟩ := timeSeg_names tidy p hp2
    rcases hname with h | h <;> rw [h]
    · exact away_app_ne_home_app t s "_seconds" "_made"
    · exact Ne.symm (name_pct_ne_time s t hs htp).2.2.1
  rw [colLookup_append_right _ _ _ hintskip]
  by_cases hkP : k ∈ keysOf (pctSubRows tidy)
  case neg =>
    rw [pctSeg_neg tidy k hkP, List.nil_append, colLookup_none _ _ htimeskip]
    exact (pivotCell_no_key _ _ _ _ hkP).symm
  rw [pctSeg_pos tidy k hkP]
  simp only [List.append_assoc]
  have h1 := find?_named_map_none (statsOf (pctSubRows tidy))
    (fun t => "away_" ++ t ++ "_made")
    (fun t => pivotCell (pctSubRows tidy) k t PctVals.am) ("home_" ++ s ++ "_made")
    (fun t _ => away_app_ne_home_app t s "_made" "_made")
  have h2 := find?_named_map_none (statsOf (pctSubRows tidy))
    (fun t => "away_" ++ t ++ "_att")
    (fun t => pivotCell (pctSubRows tidy) k t PctVals.aa) ("home_" ++ s ++ "_made")
    (fun t _ => away_app_ne_home_app t s "_att" "_made")
  rw [colLookup_append_right _ _ _ h1, colLookup_append_right _ _ _ h2]
  by_cases hsP : s ∈ statsOf (pctSubRows tidy)
  case pos =>
    have hfind := find?_named_map (statsOf (pctSubRows tidy))
      (fun t => "home_" ++ t ++ "_made")
      (fun t => pivotCell (pctSubRows tidy) k t PctVals.hm) s hsP
      (fun t ht h => name_pct_inj_made_h t s (statsOf_sub_pct tidy t ht) hs h)
    exact colLookup_append_left _ _ _ _ hfind
  case neg =>
    have h3 := find?_named_map_none (statsOf (pctSubRows tidy))
      (fun t => "home_" ++ t ++ "_made")
      (fun t => pivotCell (pctSubRows tidy) k t PctVals.hm) ("home_" ++ s ++ "_made")
      (fun t ht h => hsP (name_pct_inj_made_h t s (statsOf_sub_pct tidy t ht) hs h ▸ ht))
    have h4 := find?_named_map_none (statsOf (pctSubRows tidy))
      (fun t => "home_" ++ t ++ "_att")
      (fun t => pivotCell (pctSubRows tidy) k t PctVals.ha) ("home_" ++ s ++ "_made")
      (fun t ht => Ne.symm (name_pct_made_ne_att s t hs (statsOf_sub_pct tidy t ht)).2)
    rw [colLookup_append_right _ _ _ h3, colLookup_append_right _ _ _ h4,
      colLookup_none _ _ htimeskip]
    exact (pivotCell_no_stat _ _ _ _ hsP).symm

lemma wideCell_pct_home_att (tidy : List TidyRow) (hne : tidy ≠ []) (hp : piecesOf tidy ≠ [])
    (k : GKey) (s : String) (hs : s ∈ PCT_LIKE) :
    wideCell (pivotTotalsWide tidy) k ("home_" ++ s ++ "_att") =
      pivotCell (pctSubRows tidy) k s PctVals.ha := by
  rw [wideCell_pivot tidy hne hp]
  by_cases hk : k ∈ baseKeys tidy
  case neg =>
    rw [if_neg hk]
    exact (pivotCell_no_key _ _ _ _ (subKeys_in_base_pct tidy k hk)).symm
  rw [if_pos hk, joinCols_piecesOf]
  simp only [List.append_assoc]
  have hintskip : (pieceColsAt (intPieceDesc tidy) k).find?
      (fun p => p.1 == "home_" ++ s ++ "_att") = none := by
    apply find?_pieceColsAt_none
    intro p hp2
    obtain ⟨t, htp, hname⟩ := intSeg_names tidy p hp2
    rcases hname with h | h <;> rw [h]
    · exact away_ne_home_app t s "_att"
    · exact (name_int_ne_pct t s htp hs).2.2.2
  have htimeskip : (pieceColsAt (timePieceDesc tidy) k).find?
      (fun p => p.1 == "home_" ++ s ++ "_att") = none := by
    apply find?_pieceColsAt_none
    intro p hp2
    obtain ⟨t, htp, hname⟩ := timeSeg_names tidy p hp2
    rcases hname with h | h <;> rw [h]
    · exact away_app_ne_home_app t s "_seconds" "_att"
    · exact Ne.symm (name_pct_ne_time s t hs htp).2.2.2
  rw [colLookup_append_right _ _ _ hintskip]
  by_cases hkP : k ∈ keysOf (pctSubRows tidy)
  case neg =>
    rw [pctSeg_neg tidy k hkP, List.nil_append, colLookup_none _ _ htimeskip]
    exact (pivotCell_no_key _ _ _ _ hkP).symm
  rw [pctSeg_pos tidy k hkP]
  simp only [List.append_assoc]
  have h1 := find?_named_map_none (statsOf (pctSubRows tidy))
    (fun t => "away_" ++ t ++ "_made")
    (fun t => pivotCell (pctSubRows tidy) k t PctVals.am) ("home_" ++ s ++ "_att")
    (fun t _ => away_app_ne_home_app t s "_made" "_att")
  have h2 := find?_named_map_none (statsOf (pctSubRows tidy))
    (fun t => "away_" ++ t ++ "_att")
    (fun t => pivotCell (pctSubRows tidy) k t PctVals.aa) ("home_" ++ s ++ "_att")
    (fun t _ => away_app_ne_home_app t s "_att" "_att")
  have h3 := find?_named_map_none (statsOf (pctSubRows tidy))
    (fun t => "home_" ++ t ++ "_made")
    (fun t => pivotCell (pctSubRows tidy) k t PctVals.hm) ("home_" ++ s ++ "_att")
    (fun t ht => (name_pct_made_ne_att t s (statsOf_sub_pct tidy t ht) hs).2)
  rw [colLookup_append_right _ _ _ h1, colLookup_append_right _ _ _ h2,
    colLookup_append_right _ _ _ h3]
  by_cases hsP : s ∈ statsOf (pctSubRows tidy)
  case pos =>
    have hfind := find?_named_map (statsOf (pctSubRows tidy))
      (fun t => "home_" ++ t ++ "_att")
      (fun t => pivotCell (pctSubRows tidy) k t PctVals.ha) s hsP
      (fun t ht h => name_pct_inj_att_h t s (statsOf_sub_pct tidy t ht) hs h)
    exact colLookup_append_left _ _ _ _ hfind
  case neg =>
    have h4 := find?_named_map_none (statsOf (pctSubRows tidy))
      (fun t => "home_" ++ t ++ "_att")
      (fun t => pivotCell (pctSubRows tidy) k t PctVals.ha) ("home_" ++ s ++ "_att")
      (fun t ht h => hsP (name_pct_inj_att_h t s (statsOf_sub_pct tidy t ht) hs h ▸ ht))
    rw [colLookup_append_right _ _ _ h4, colLookup_none _ _ htimeskip]
    exact (pivotCell_no_stat _ _ _ _ hsP).symm

end PFR

namespace PFR

lemma colLookup_found (xs : List (String × Option Int)) (c : String)
    (p0 : String × Option Int) (h : xs.find? (fun p => p.1 == c) = some p0) :
    colLookup xs c = p0.2 := by
  unfold colLookup
  rw [h]

lemma wideCell_time_away (tidy : List TidyRow) (hne : tidy ≠ []) (hp : piecesOf tidy ≠ [])
    (k : GKey) (s : String) (hs : s ∈ TIME_LIKE) :
    wideCell (pivotTotalsWide tidy) k ("away_" ++ s ++ "_seconds") =
      pivotCell (timeSubRows tidy) k s Prod.fst := by
  rw [wideCell_pivot tidy hne hp]
  by_cases hk : k ∈ baseKeys tidy
  case neg =>
    rw [if_neg hk]
    exact (pivotCell_no_key _ _ _ _ (subKeys_in_base_time tidy k hk)).symm
  rw [if_pos hk, joinCols_piecesOf]
  simp only [List.append_assoc]
  have hintskip : (pieceColsAt (intPieceDesc tidy) k).find?
      (fun p => p.1 == "away_" ++ s ++ "_seconds") = none := by
    apply find?_pieceColsAt_none
    intro p hp2
    obtain ⟨t, htp, hname⟩ := intSeg_names tidy p hp2
    rcases hname with h | h <;> rw [h]
    · exact (name_int_ne_time t s htp hs).1
    · exact home_ne_away_app t s "_seconds"
  have hpctskip : (pieceColsAt (pctPieceDesc tidy) k).find?
      (fun p => p.1 == "away_" ++ s ++ "_seconds") = none := by
    apply find?_pieceColsAt_none
    intro p hp2
    obtain ⟨t, htp, hname⟩ := pctSeg_names tidy p hp2
    rcases hname with h | h | h | h <;> rw [h]
    · exact (name_pct_ne_time t s htp hs).1
    · exact (name_pct_ne_time t s htp hs).2.1
    · exact home_app_ne_away_app t s "_made" "_seconds"
    · exact home_app_ne_away_app t s "_att" "_seconds"
  rw [colLookup_append_right _ _ _ hintskip, colLookup_append_right _ _ _ hpctskip]
  by_cases hkT : k ∈ keysOf (timeSubRows tidy)
  case neg =>
    rw [timeSeg_neg tidy k hkT, colLookup_nil]
    exact (pivotCell_no_key _ _ _ _ hkT).symm
  rw [timeSeg_pos tidy k hkT]
  by_cases hsT : s ∈ statsOf (timeSubRows tidy)
  case pos =>
    have hfind := find?_named_map (statsOf (timeSubRows tidy))
      (fun t => "away_" ++ t ++ "_seconds")
      (fun t => pivotCell (timeSubRows tidy) k t Prod.fst) s hsT
      (fun t ht h => (name_time_inj t s (statsOf_sub_time tidy t ht) hs).1 h)
    exact colLookup_append_left _ _ _ _ hfind
  case neg =>
    have h1 := find?_named_map_none (statsOf (timeSubRows tidy))
      (fun t => "away_" ++ t ++ "_seconds")
      (fun t => pivotCell (timeSubRows tidy) k t Prod.fst) ("away_" ++ s ++ "_seconds")
      (fun t ht h => hsT ((name_time_inj t s (statsOf_sub_time tidy t ht) hs).1 h ▸ ht))
    have h2 := find?_named_map_none (statsOf (timeSubRows tidy))
      (fun t => "home_" ++ t ++ "_seconds")
      (fun t => pivotCell (timeSubRows tidy) k t Prod.snd) ("away_" ++ s ++ "_seconds")
      (fun t _ => home_app_ne_away_app t s "_seconds" "_seconds")
    rw [colLookup_append_right _ _ _ h1, colLookup_none _ _ h2]
    exact (pivotCell_no_stat _ _ _ _ hsT).symm

lemma wideCell_time_home (tidy : List TidyRow) (hne : tidy ≠ []) (hp : piecesOf tidy ≠ [])
    (k : GKey) (s : String) (hs : s ∈ TIME_LIKE) :
    wideCell (pivotTotalsWide tidy) k ("home_" ++ s ++ "_seconds") =
      pivotCell (timeSubRows tidy) k s Prod.snd := by
  rw [wideCell_pivot tidy hne hp]
  by_cases hk : k ∈ baseKeys tidy
  case neg =>
    rw [if_neg hk]
    exact (pivotCell_no_key _ _ _ _ (subKeys_in_base_time tidy k hk)).symm
  rw [if_pos hk, joinCols_piecesOf]
  simp only [List.append_assoc]
  have hintskip : (pieceColsAt (intPieceDesc tidy) k).find?
      (fun p => p.1 == "home_" ++ s ++ "_seconds") = none := by
    apply find?_pieceColsAt_none
    intro p hp2
    obtain ⟨t, htp, hname⟩ := intSeg_names tidy p hp2
    rcases hname with h | h <;> rw [h]
    · exact away_ne_home_app t s "_seconds"
    · exact (name_int_ne_time t s htp hs).2
  have hpctskip : (pieceColsAt (pctPieceDesc tidy) k).find?
      (fun p => p.1 == "home_" ++ s ++ "_seconds") = none := by
    apply find?_pieceColsAt_none
    intro p hp2
    obtain ⟨t, htp, hname⟩ := pctSeg_names tidy p hp2
    rcases hname with h | h | h | h <;> rw [h]
    · exact away_app_ne_home_app t s "_made" "_seconds"
    · exact away_app_ne_home_app t s "_att" "_seconds"
    · exact (name_pct_ne_time t s htp hs).2.2.1
    · exact (name_pct_ne_time t s htp hs).2.2.2
  rw [colLookup_append_right _ _ _ hintskip, colLookup_append_right _ _ _ hpctskip]
  by_cases hkT : k ∈ keysOf (timeSubRows tidy)
  case neg =>
    rw [timeSeg_neg tidy k hkT, colLookup_nil]
    exact (pivotCell_no_key _ _ _ _ hkT).symm
  rw [timeSeg_pos tidy k hkT]
  have h1 := find?_named_map_none (statsOf (timeSubRows tidy))
    (fun t => "away_" ++ t ++ "_seconds")
    (fun t => pivotCell (timeSubRows tidy) k t Prod.fst) ("home_" ++ s ++ "_seconds")
    (fun t _ => away_app_ne_home_app t s "_seconds" "_seconds")
  rw [colLookup_append_right _ _ _ h1]
  by_cases hsT : s ∈ statsOf (timeSubRows tidy)
  case pos =>
    have hfind := find?_named_map (statsOf (timeSubRows tidy))
      (fun t => "home_" ++ t ++ "_seconds")
      (fun t => pivotCell (timeSubRows tidy) k t Prod.snd) s hsT
      (fun t ht h => (name_time_inj t s (statsOf_sub_time tidy t ht) hs).2 h)
    exact colLookup_found _ _ _ hfind
  case neg =>
    have h2 := find?_named_map_none (statsOf (timeSubRows tidy))
      (fun t => "home_" ++ t ++ "_seconds")
      (fun t => pivotCell (timeSubRows tidy) k t Prod.snd) ("home_" ++ s ++ "_seconds")
      (fun t ht h => hsT ((name_time_inj t s (statsOf_sub_time tidy t ht) hs).2 h ▸ ht))
    rw [colLookup_none _ _ h2]
    exact (pivotCell_no_stat _ _ _ _ hsT).symm

end PFR

namespace PFR

def c7WitRow : TotalsRow :=
  { game_id := "g2", away_team := "AA", home_team := "HH",
    stat := "Total Yards", away_value := "350", home_value := "410" }

/-- C7 (amended): for a non-empty tidy input with at least one non-empty
shape-group piece, the wide frame has exactly one row per distinct entity
key in first-appearance order, and every declared wide column reads back
the pivot cell of its shape group: the first NON-NULL value of that column
among the group's rows for the entity, null when the entity or stat is
absent from the group. -/
theorem C7_wide_reshape (tidy : List TidyRow) (hne : tidy ≠ [])
    (hp : piecesOf tidy ≠ []) :
    ((pivotTotalsWide tidy).map Prod.fst = dedupFirst (tidy.map keyOf) ∧
     ((pivotTotalsWide tidy).map Prod.fst).Nodup ∧
     ∀ k, k ∈ (pivotTotalsWide tidy).map Prod.fst ↔ k ∈ tidy.map keyOf) ∧
    (∀ k s, s ∈ INT_LIKE →
      wideCell (pivotTotalsWide tidy) k ("away_" ++ s) =
        pivotCell (intSubRows tidy) k s Prod.fst ∧
      wideCell (pivotTotalsWide tidy) k ("home_" ++ s) =
        pivotCell (intSubRows tidy) k s Prod.snd) ∧
    (∀ k s, s ∈ PCT_LIKE →
      wideCell (pivotTotalsWide tidy) k ("away_" ++ s ++ "_made") =
        pivotCell (pctSubRows tidy) k s PctVals.am ∧
      wideCell (pivotTotalsWide tidy) k ("away_" ++ s ++ "_att") =
        pivotCell (pctSubRows tidy) k s PctVals.aa ∧
      wideCell (pivotTotalsWide tidy) k ("home_" ++ s ++ "_made") =
        pivotCell (pctSubRows tidy) k s PctVals.hm ∧
      wideCell (pivotTotalsWide tidy) k ("home_" ++ s ++ "_att") =
        pivotCell (pctSubRows tidy) k s PctVals.ha) ∧
    (∀ k s, s ∈ TIME_LIKE →
      wideCell (pivotTotalsWide tidy) k ("away_" ++ s ++ "_seconds") =
        pivotCell (timeSubRows tidy) k s Prod.fst ∧
      wideCell (pivotTotalsWide tidy) k ("home_" ++ s ++ "_seconds") =
        pivotCell (timeSubRows tidy) k s Prod.snd) := by
  have hkeys := pivotTotalsWide_keys tidy hne hp
  refine ⟨⟨hkeys, ?_, ?_⟩, ?_, ?_, ?_⟩
  · rw [hkeys]
    exact dedupFirst_nodup _
  · intro k
    rw [hkeys]
    exact dedupFirst_mem _ _
  · intro k s hs
    exact ⟨wideCell_int_away tidy hne hp k s hs, wideCell_int_home tidy hne hp k s hs⟩
  · intro k s hs
    exact ⟨wideCell_pct_away_made tidy hne hp k s hs,
      wideCell_pct_away_att tidy hne hp k s hs,
      wideCell_pct_home_made tidy hne hp k s hs,
      wideCell_pct_home_att tidy hne hp k s hs⟩
  · intro k s hs
    exact ⟨wideCell_time_away tidy hne hp k s hs, wideCell_time_home tidy hne hp k s hs⟩

/-- Witness for C7 (amended) on a one-row integer stat: both hypotheses
hold and the away wide cell reads the pivoted value. -/
theorem C7_wide_reshape_witness :
    tidyTotals [c7WitRow] ≠ [] ∧ piecesOf (tidyTotals [c7WitRow]) ≠ [] ∧
    (pivotTotalsWide (tidyTotals [c7WitRow])).map Prod.fst =
      dedupFirst ((tidyTotals [c7WitRow]).map keyOf) ∧
    wideCell (pivotTotalsWide (tidyTotals [c7WitRow])) ("g2", "AA", "HH")
      "away_total_yards" = some 350 ∧
    wideCell (pivotTotalsWide (tidyTotals [c7WitRow])) ("g2", "AA", "HH")
      "home_total_yards" = some 410 := by
  have hlen1 : (tidyTotals [c7WitRow]).length = 1 := rfl
  have hne : tidyTotals [c7WitRow] ≠ [] := by
    intro h
    rw [h] at hlen1
    exact absurd hlen1 (by decide)
  have hlen2 : (piecesOf (tidyTotals [c7WitRow])).length = 1 := rfl
  have hp : piecesOf (tidyTotals [c7WitRow]) ≠ [] := by
    intro h
    rw [h] at hlen2
    exact absurd hlen2 (by decide)
  have h := C7_wide_reshape (tidyTotals [c7WitRow]) hne hp
  have hint := h.2.1 ("g2", "AA", "HH") "total_yards" (by decide)
  refine ⟨hne, hp, h.1.1, ?_, ?_⟩
  · rw [show ("away_total_yards" : String) = "away_" ++ "total_yards" from rfl, hint.1]
    decide
  · rw [show ("home_total_yards" : String) = "home_" ++ "total_yards" from rfl, hint.2]
    decide

end PFR
